import Mathlib

/-!
Verification development for the bgpsimulator core (simulation engine,
routing policies, data-plane traceback).  Python sources are embedded
shallowly: machine dictionaries become association lists, exceptions become
`Except PyErr`, and mutable state is threaded explicitly.  Python `dict`
iteration order (insertion order) is preserved by the list representation.
-/

namespace BgpSim

/-- Python runtime errors raised on the embedded code paths. -/
inductive PyErr
  | indexError
  | typeError
  | nameError
  | keyError
  | valueError
  | notImplementedError
  | gaoRexfordError
  deriving DecidableEq, Repr

/-- `Relationships` enum (shared/enums.py).  Higher value = higher
local preference for announcements. -/
inductive Rel
  | providers
  | peers
  | customers
  | origin
  | unknown
  deriving DecidableEq, Repr

/-- `Relationships` integer wire values (PROVIDERS=1 .. UNKNOWN=5). -/
def Rel.value : Rel → Nat
  | .providers => 1
  | .peers => 2
  | .customers => 3
  | .origin => 4
  | .unknown => 5

/-- `Prefix` (shared/prefix.py).  Both address families live in the unified
128-bit v6 space (IPv4 is mapped into it); we embed the canonical network
form: the 128-bit network address together with the v6 prefix length.
`ipaddress.IPv6Network` guarantees host bits are zero in `addr`. -/
structure Pfx where
  addr : Nat
  len  : Nat
  deriving DecidableEq, Repr

/-- `Prefix.prefixlen` property (for the embedded native-v6 view). -/
def Pfx.prefixlen (p : Pfx) : Nat := p.len

/-- `Prefix.supernet_of` (shared/prefix.py): non-strict containment of the
other network in this one, computed on network addresses. -/
def Pfx.supernetOfB (p q : Pfx) : Bool :=
  decide (p.len ≤ q.len) && (p.addr / 2 ^ (128 - p.len) == q.addr / 2 ^ (128 - p.len))

/-- `Prefix.__contains__` (shared/prefix.py): `other in self` iff
`other ⊆ self` or the two networks are equal. -/
def Pfx.containsB (p q : Pfx) : Bool :=
  Pfx.supernetOfB p q || (p == q)

/-- `IPAddr` is a `Prefix` whose length is the full address width. -/
def mkIPAddr (a : Nat) : Pfx := ⟨a, 128⟩

/-- `Announcement` record (simulation_engine/announcement.py). -/
structure Ann where
  pfx : Pfx
  asPath : List Nat
  nextHopAsn : Nat
  recvRel : Rel
  timestamp : Nat
  bgpsecNextAsn : Option Nat
  bgpsecAsPath : List Nat
  onlyToCustomers : Option Nat
  rovppBlackhole : Bool
  deriving DecidableEq, Repr

/-- `Announcement.origin` property: the rightmost element of `as_path`
(`as_path[-1]`); IndexError on an empty path. -/
def Ann.originE (a : Ann) : Except PyErr Nat :=
  match a.asPath.getLast? with
  | some n => .ok n
  | none => .error .indexError

/-- Line 39 of announcement.py: `self.next_hop_asn = next_hop_asn or as_path[-1]`.
Python `or` takes the right operand when `next_hop_asn` is `None` **or `0`**
(both are falsy); `as_path[-1]` raises IndexError on an empty path. -/
def pyNextHopOr (nextHopAsn : Option Nat) (asPath : List Nat) : Except PyErr Nat :=
  match nextHopAsn with
  | some n =>
      if n ≠ 0 then .ok n
      else match asPath.getLast? with
        | some m => .ok m
        | none => .error .indexError
  | none =>
      match asPath.getLast? with
      | some m => .ok m
      | none => .error .indexError

/-- `Announcement.__init__` (announcement.py lines 24-62).  After line 39 the
field `next_hop_asn` is always an integer (or the constructor has already
raised), so the `if self.next_hop_asn is None:` validation block at lines
47-62 (single-element default / ValueError for longer paths) can never
execute; the embedding therefore ends at the line-39 assignment. -/
def mkAnn (pfx : Pfx) (asPath : List Nat) (nextHopAsn : Option Nat)
    (recvRel : Rel) (timestamp : Nat) (bgpsecNextAsn : Option Nat)
    (bgpsecAsPath : List Nat) (onlyToCustomers : Option Nat)
    (rovppBlackhole : Bool) : Except PyErr Ann :=
  (pyNextHopOr nextHopAsn asPath).map fun nh =>
    { pfx := pfx
      asPath := asPath
      nextHopAsn := nh
      recvRel := recvRel
      timestamp := timestamp
      bgpsecNextAsn := bgpsecNextAsn
      bgpsecAsPath := bgpsecAsPath
      onlyToCustomers := onlyToCustomers
      rovppBlackhole := rovppBlackhole }

/-- A sample prefix used in concrete evaluations. -/
def pfx16 : Pfx := ⟨0, 112⟩

/-- C6 counterexample data: constructing with a two-element path and no
explicit next hop. -/
def annTwoHopNoNextHop : Except PyErr Ann :=
  mkAnn pfx16 [1, 2] none .origin 0 none [] none false

/-- C6: constructing with a one-element path and no explicit next hop. -/
def annOneHopNoNextHop : Except PyErr Ann :=
  mkAnn pfx16 [5] none .origin 0 none [] none false

/-- C6: `Announcement.__init__` with a two-element as_path and no explicit
`next_hop_asn` does **not** raise: line 39's `next_hop_asn or as_path[-1]`
silently sets the next hop to the rightmost path element (2), so the
ValueError branch that was supposed to reject the ambiguous construction is
dead code.  A one-element path also succeeds, with the next hop equal to its
only element. -/
theorem c6_next_hop_default_bug :
    annTwoHopNoNextHop =
      .ok { pfx := pfx16, asPath := [1, 2], nextHopAsn := 2, recvRel := .origin,
            timestamp := 0, bgpsecNextAsn := none, bgpsecAsPath := [],
            onlyToCustomers := none, rovppBlackhole := false } ∧
    annOneHopNoNextHop =
      .ok { pfx := pfx16, asPath := [5], nextHopAsn := 5, recvRel := .origin,
            timestamp := 0, bgpsecNextAsn := none, bgpsecAsPath := [],
            onlyToCustomers := none, rovppBlackhole := false } := by
  constructor <;> rfl

/-! ## Settings and validity composition -/

/-- Modelled from the spec: the `Settings` / `RoutingPolicySettings` enums are
imported from shared/enums.py but are absent from src/ (enums.py holds only
`Relationships`).  Constructors follow the member names used by policy.py,
routing_policy.py and spec §4.4. -/
inductive Setting
  | aspa
  | aspaWN
  | asra
  | asPathEdgeFilter
  | enforceFirstAS
  | onlyToCustomers
  | rov
  | peerRov
  | pathEnd
  | peerlockLite
  | bgpISec
  | bgpISecTransitive
  | providerConeId
  | bgpsec
  | rovppV1Lite
  | rovppV2Lite
  | rovppV2iLite
  | originPrefixHijackCustomers
  | firstAsnStrippingPrefixHijackCustomers
  | edgeFilter
  deriving DecidableEq, Repr

/-- A policy's settings dict, read through `settings.get(x, False)`. -/
def SettingsMap := Setting → Bool

/-- The all-False default produced by `{x: False for x in Settings}`. -/
def allFalseSettings : SettingsMap := fun _ => false

/-- Modelled from the spec: `policy_extensions.BGP.valid_ann` (imported by
policy.py) is absent from src/ — the policy_extensions package holds only
aspapp.py and suppress_withdrawals.py.  Spec §4.4 rule 1 gives the check:
`self.asn ∉ a.as_path ∧ 0 ∉ a.as_path`. -/
def bgpValidAnnSpec (selfAsn : Nat) (a : Ann) : Bool :=
  decide (selfAsn ∉ a.asPath) && decide (0 ∉ a.asPath)

/-- The per-extension validity hooks consulted by `Policy.valid_ann`
(policy_extensions package, absent from src/).  Each receives the
announcement and the relationship it arrived over, the owning policy being
fixed; they are abstract parameters of the embedding. -/
structure ExtChecks where
  aspa : Ann → Rel → Bool
  aspaWN : Ann → Rel → Bool
  asra : Ann → Rel → Bool
  asPathEdgeFilter : Ann → Rel → Bool
  enforceFirstAS : Ann → Rel → Bool
  onlyToCustomers : Ann → Rel → Bool
  rov : Ann → Rel → Bool
  peerRov : Ann → Rel → Bool
  pathEnd : Ann → Rel → Bool
  peerlockLite : Ann → Rel → Bool
  bgpisec : Ann → Rel → Bool
  providerConeId : Ann → Rel → Bool

/-- `Policy.valid_ann` (policy/policy.py lines 171-226): the BGP loop check
runs first and short-circuits; every later check runs only when its setting
is enabled. -/
def policyValidAnn (ext : ExtChecks) (s : SettingsMap) (selfAsn : Nat)
    (a : Ann) (fromRel : Rel) : Bool :=
  if !(bgpValidAnnSpec selfAsn a) then false
  else if s .aspa && !(s .asra) && !(s .aspaWN) && !(ext.aspa a fromRel) then false
  else if s .aspaWN && !(s .asra) && !(ext.aspaWN a fromRel) then false
  else if s .asra && !(ext.asra a fromRel) then false
  else if s .asPathEdgeFilter && !(ext.asPathEdgeFilter a fromRel) then false
  else if s .enforceFirstAS && !(ext.enforceFirstAS a fromRel) then false
  else if s .onlyToCustomers && !(ext.onlyToCustomers a fromRel) then false
  else if (s .rov || s .rovppV1Lite || s .rovppV2Lite || s .rovppV2iLite)
      && !(ext.rov a fromRel) then false
  else if s .peerRov && !(ext.peerRov a fromRel) then false
  else if s .pathEnd && !(ext.pathEnd a fromRel) then false
  else if s .peerlockLite && !(ext.peerlockLite a fromRel) then false
  else if (s .bgpISec || s .bgpISecTransitive) && !(ext.bgpisec a fromRel) then false
  else if s .providerConeId && !(ext.providerConeId a fromRel) then false
  else true

/-- `BGP.valid_ann` (routing_policy/custom_policies/bgp.py): BGP loop
prevention, `as_obj.asn not in ann.as_path and 0 not in ann.as_path`. -/
def bgpCpValidAnn (asObjAsn : Nat) (a : Ann) : Bool :=
  decide (asObjAsn ∉ a.asPath) && decide (0 ∉ a.asPath)

/-- The validity hooks consulted by `RoutingPolicy.valid_ann` after the BGP
check (routing_policy/custom_policies); abstracted over the graph context
they close over. -/
structure RPChecks where
  aspa : Ann → Rel → Bool
  aspaWN : Ann → Rel → Bool
  asra : Ann → Rel → Bool
  edgeFilter : Ann → Rel → Bool
  enforceFirstAS : Ann → Rel → Bool
  onlyToCustomers : Ann → Rel → Bool
  rov : Ann → Rel → Bool
  pathEnd : Ann → Rel → Bool
  peerLockLite : Ann → Rel → Bool

/-- `RoutingPolicy.valid_ann` (routing_policy/routing_policy.py lines
144-171).  NOTE: the source's first check reads
`if BGP.valid_ann(ann, from_rel, as_obj): return False` — with no `not` —
so the function returns False exactly when the loop-prevention check
*passes*, and falls through to the remaining checks when it fails. -/
def routingPolicyValidAnn (checks : RPChecks) (s : SettingsMap)
    (asObjAsn : Nat) (a : Ann) (fromRel : Rel) : Bool :=
  if bgpCpValidAnn asObjAsn a then false
  else if s .aspa && !(s .asra) && !(s .aspaWN) && !(checks.aspa a fromRel) then false
  else if s .aspaWN && !(s .asra) && !(checks.aspaWN a fromRel) then false
  else if s .asra && !(checks.asra a fromRel) then false
  else if s .edgeFilter && !(checks.edgeFilter a fromRel) then false
  else if s .enforceFirstAS && !(checks.enforceFirstAS a fromRel) then false
  else if s .onlyToCustomers && !(checks.onlyToCustomers a fromRel) then false
  else if s .rov && !(checks.rov a fromRel) then false
  else if s .pathEnd && !(checks.pathEnd a fromRel) then false
  else if s .peerlockLite && !(checks.peerLockLite a fromRel) then false
  else true

/-- Constant-true hook set, used to instantiate concrete evaluations. -/
def trueRPChecks : RPChecks :=
  ⟨fun _ _ => true, fun _ _ => true, fun _ _ => true, fun _ _ => true,
   fun _ _ => true, fun _ _ => true, fun _ _ => true, fun _ _ => true,
   fun _ _ => true⟩

/-- Constant-true extension hook set for `Policy.valid_ann` evaluations. -/
def trueExtChecks : ExtChecks :=
  ⟨fun _ _ => true, fun _ _ => true, fun _ _ => true, fun _ _ => true,
   fun _ _ => true, fun _ _ => true, fun _ _ => true, fun _ _ => true,
   fun _ _ => true, fun _ _ => true, fun _ _ => true, fun _ _ => true⟩

/-- An announcement whose as_path contains the receiving AS 1 (a loop). -/
def loopedAnn : Ann :=
  { pfx := pfx16, asPath := [1, 2], nextHopAsn := 2, recvRel := .origin,
    timestamp := 0, bgpsecNextAsn := none, bgpsecAsPath := [],
    onlyToCustomers := none, rovppBlackhole := false }

/-- A loop-free announcement (neither 1 nor 0 occurs on the path). -/
def cleanAnn : Ann :=
  { pfx := pfx16, asPath := [2, 3], nextHopAsn := 2, recvRel := .origin,
    timestamp := 0, bgpsecNextAsn := none, bgpsecAsPath := [],
    onlyToCustomers := none, rovppBlackhole := false }

/-- C1: `Policy.valid_ann` does drop any announcement whose path contains
the receiving ASN or 0, for every settings combination and every extension
behaviour — but `RoutingPolicy.valid_ann` inverts the BGP loop check
(`if BGP.valid_ann(...): return False`, missing `not`): with default
settings at AS 1 it *accepts* the looped path [1, 2] and *rejects* the
clean path [2, 3]. -/
theorem c1_loop_prevention :
    (∀ (ext : ExtChecks) (s : SettingsMap) (selfAsn : Nat) (a : Ann) (fromRel : Rel),
      selfAsn ∈ a.asPath ∨ 0 ∈ a.asPath →
      policyValidAnn ext s selfAsn a fromRel = false) ∧
    routingPolicyValidAnn trueRPChecks allFalseSettings 1 loopedAnn .customers = true ∧
    routingPolicyValidAnn trueRPChecks allFalseSettings 1 cleanAnn .customers = false := by
  refine ⟨fun ext s selfAsn a fromRel h => ?_, by rfl, by rfl⟩
  have hb : bgpValidAnnSpec selfAsn a = false := by
    unfold bgpValidAnnSpec
    rcases h with h | h <;> simp [h]
  unfold policyValidAnn
  rw [hb]
  rfl

/-- C1 witness: the universal first conjunct applied at a concrete input. -/
theorem c1_loop_prevention_witness :
    policyValidAnn trueExtChecks allFalseSettings 1 loopedAnn .customers = false :=
  c1_loop_prevention.1 trueExtChecks allFalseSettings 1 loopedAnn .customers
    (by decide)

/-! ## AS-Path-Edge-Filter (C7) -/

/-- The slice of an `AS` object consulted by the edge filter: the receiver's
neighbor ASNs, and for any ASN the graph's stub/multihomed classification
(as_graphs `AS.stub` / `AS.multihomed` cached properties). -/
structure EFCtx where
  neighborAsns : List Nat
  asDict : Nat → Option (Nat × Bool × Bool)

/-- `EdgeFilter.valid_ann` (routing_policy/custom_policies/edge_filter.py).
NOTE: the source takes `origin_asn = ann.as_path[0]` — the *leftmost*
(most recent) element — even though `Announcement.origin` in this code base
is `as_path[-1]`.  `as_path[0]` raises IndexError on an empty path, and the
`as_dict[origin_asn]` subscript raises KeyError when the ASN is absent. -/
def edgeFilterValidAnn (asObj : EFCtx) (a : Ann) : Except PyErr Bool :=
  match a.asPath.head? with
  | none => .error .indexError
  | some originAsn =>
      if originAsn ∈ asObj.neighborAsns then
        match asObj.asDict originAsn with
        | none => .error .keyError
        | some info =>
            if (info.2.1 || info.2.2)
                && !(decide (a.asPath.toFinset = ({info.1} : Finset Nat))) then
              .ok false
            else
              .ok true
      else .ok true

/-- Edge-filter context: the receiver's only neighbor is AS 9, a stub. -/
def efCtx : EFCtx :=
  { neighborAsns := [9]
    asDict := fun n => if n = 9 then some (9, true, false) else none }

/-- Path [5, 9]: the rightmost element (the origin, 9) is a stub neighbor. -/
def efAnnOriginLast : Ann :=
  { pfx := pfx16, asPath := [5, 9], nextHopAsn := 5, recvRel := .origin,
    timestamp := 0, bgpsecNextAsn := none, bgpsecAsPath := [],
    onlyToCustomers := none, rovppBlackhole := false }

/-- Path [9, 5]: the rightmost element (the origin, 5) is not a neighbor;
only the leftmost element 9 is the stub neighbor. -/
def efAnnNeighborFirst : Ann :=
  { pfx := pfx16, asPath := [9, 5], nextHopAsn := 9, recvRel := .origin,
    timestamp := 0, bgpsecNextAsn := none, bgpsecAsPath := [],
    onlyToCustomers := none, rovppBlackhole := false }

/-- C7: the edge filter keys on `as_path[0]`, not on the origin
(`as_path[-1]`).  With stub neighbor 9: the announcement [5, 9] — whose
origin 9 *is* the stub neighbor and whose path set is not {9} — is accepted
(the claim requires rejection), while [9, 5] — whose origin 5 is not a
neighbor at all — is rejected (the claim says such announcements are never
rejected by this filter). -/
theorem c7_edge_filter_uses_leftmost :
    edgeFilterValidAnn efCtx efAnnOriginLast = .ok true ∧
    efAnnOriginLast.originE = .ok 9 ∧ (9 : Nat) ∈ efCtx.neighborAsns ∧
    edgeFilterValidAnn efCtx efAnnNeighborFirst = .ok false ∧
    efAnnNeighborFirst.originE = .ok 5 ∧ (5 : Nat) ∉ efCtx.neighborAsns := by
  refine ⟨by rfl, by rfl, by decide, by rfl, by rfl, by decide⟩

/-! ## Gao-Rexford decision procedure -/

/-- Python list subscript `l[i]`: IndexError when out of range. -/
def pyIndex (l : List Nat) (i : Nat) : Except PyErr Nat :=
  match l.get? i with
  | some x => .ok x
  | none => .error .indexError

/-- `Policy._get_best_ann_by_local_pref` (policy.py 268-274): higher
`recv_relationship.value` wins, `None` on a tie. -/
def getBestAnnByLocalPref (cur new : Ann) : Option Ann :=
  if cur.recvRel.value > new.recvRel.value then some cur
  else if cur.recvRel.value < new.recvRel.value then some new
  else none

/-- `Policy._get_best_ann_by_as_path` (policy.py 276-282): shorter as_path
wins, `None` on a tie. -/
def getBestAnnByAsPath (cur new : Ann) : Option Ann :=
  if cur.asPath.length < new.asPath.length then some cur
  else if cur.asPath.length > new.asPath.length then some new
  else none

/-- `Policy._get_best_ann_by_lowest_neighbor_asn_tiebreaker` (policy.py
284-296).  NOTE: the source indexes `as_path[min(len(as_path), 1)]`; for a
single-element path this is `as_path[1]`, an IndexError (the spec prescribes
`as_path[min(len - 1, 1)]`). -/
def lowestNeighborAsnTiebreaker (cur new : Ann) : Except PyErr Ann := do
  let curNeighborAsn ← pyIndex cur.asPath (min cur.asPath.length 1)
  let newNeighborAsn ← pyIndex new.asPath (min new.asPath.length 1)
  if curNeighborAsn ≤ newNeighborAsn then return cur else return new

/-- `Policy._get_best_ann_by_gao_rexford` (policy.py 238-266): the or-chain.
`BGPSec.get_best_ann_by_bgpsec` lives in the missing policy_extensions
package and is a parameter (returning `none` for its falsy results).  In
Python an `Announcement` object is always truthy, so the trailing
`raise GaoRexfordError` can fire only if the tiebreaker returned a falsy
value, which it never does; the embedding ends at the tiebreaker. -/
def gaoRexford (bgpsecBest : Ann → Ann → Option Ann) (s : SettingsMap)
    (cur : Option Ann) (new : Ann) : Except PyErr Ann :=
  match cur with
  | none => .ok new
  | some c =>
      match getBestAnnByLocalPref c new with
      | some w => .ok w
      | none =>
          match getBestAnnByAsPath c new with
          | some w => .ok w
          | none =>
              match (if s .bgpsec then bgpsecBest c new else none) with
              | some w => .ok w
              | none => lowestNeighborAsnTiebreaker c new

/-- Single-element-path announcement, AS 1. -/
def tieAnn1 : Ann :=
  { pfx := pfx16, asPath := [1], nextHopAsn := 1, recvRel := .customers,
    timestamp := 0, bgpsecNextAsn := none, bgpsecAsPath := [],
    onlyToCustomers := none, rovppBlackhole := false }

/-- Single-element-path announcement, AS 2. -/
def tieAnn2 : Ann :=
  { pfx := pfx16, asPath := [2], nextHopAsn := 2, recvRel := .customers,
    timestamp := 0, bgpsecNextAsn := none, bgpsecAsPath := [],
    onlyToCustomers := none, rovppBlackhole := false }

/-- Two-hop announcement with neighbor ASN 2. -/
def twoHopCur : Ann :=
  { pfx := pfx16, asPath := [3, 2], nextHopAsn := 3, recvRel := .customers,
    timestamp := 0, bgpsecNextAsn := none, bgpsecAsPath := [],
    onlyToCustomers := none, rovppBlackhole := false }

/-- Two-hop announcement with neighbor ASN 1. -/
def twoHopNew : Ann :=
  { pfx := pfx16, asPath := [4, 1], nextHopAsn := 4, recvRel := .customers,
    timestamp := 0, bgpsecNextAsn := none, bgpsecAsPath := [],
    onlyToCustomers := none, rovppBlackhole := false }

/-- C4: on two single-element-path announcements with equal relationship the
final tiebreak evaluates `as_path[min(len(as_path), 1)] = as_path[1]` and
raises IndexError instead of choosing one of its arguments (the spec's
`as_path[min(len-1, 1)]` would pick the first element).  With two-element
paths the same code returns an argument (here the lower neighbor ASN 1
wins), as the claim describes. -/
theorem c4_tiebreaker_index_error :
    gaoRexford (fun _ _ => none) allFalseSettings (some tieAnn1) tieAnn2
      = .error .indexError ∧
    gaoRexford (fun _ _ => none) allFalseSettings (some twoHopCur) twoHopNew
      = .ok twoHopNew := by
  exact ⟨rfl, rfl⟩

/-! ## process_incoming_anns (C2) -/

/-- `Announcement.copy(as_path=(self.asn, *as_path), recv_relationship=rel)`
as performed by `Policy.process_ann` (policy.py 157-160).  `copy` re-runs
`__init__`, whose line 39 `next_hop_asn or as_path[-1]` keeps the present
next hop unless it is the falsy 0, in which case the rightmost element of
the *new* path is taken; the new path is never empty, so no error arises. -/
def annCopyProcess (selfAsn : Nat) (fromRel : Rel) (a : Ann) : Ann :=
  let newPath := selfAsn :: a.asPath
  { a with
    asPath := newPath
    recvRel := fromRel
    nextHopAsn := if a.nextHopAsn ≠ 0 then a.nextHopAsn else newPath.getLastD 0 }

/-- The processing hooks of the missing policy_extensions package consulted
by `Policy.process_ann` and `_get_best_ann_by_gao_rexford`
(BGPiSecTransitive.process_ann, BGPSec.process_ann,
BGPSec.get_best_ann_by_bgpsec); abstract parameters of the embedding. -/
structure ProcExt where
  bgpisecProcess : Ann → Rel → Ann
  bgpsecProcess : Ann → Rel → Ann
  bgpsecBest : Ann → Ann → Option Ann

/-- Identity processing hooks for concrete evaluations. -/
def trivialProcExt : ProcExt :=
  ⟨fun a _ => a, fun a _ => a, fun _ _ => none⟩

/-- `Policy.process_ann` (policy.py 152-169): prepend self, stamp the
receiving relationship, then BGP-iSec / BGPsec post-processing when those
settings are enabled. -/
def processAnn (pext : ProcExt) (s : SettingsMap) (selfAsn : Nat)
    (a : Ann) (fromRel : Rel) : Ann :=
  let a1 := annCopyProcess selfAsn fromRel a
  if s .bgpISec || s .bgpISecTransitive then pext.bgpisecProcess a1 fromRel
  else if s .bgpsec then pext.bgpsecProcess a1 fromRel
  else a1

/-- `Policy._get_new_best_ann` (policy.py 141-150). -/
def getNewBestAnn (ext : ExtChecks) (pext : ProcExt) (s : SettingsMap)
    (selfAsn : Nat) (cur : Option Ann) (new : Ann) (fromRel : Rel) :
    Except PyErr (Option Ann) :=
  if policyValidAnn ext s selfAsn new fromRel then
    (gaoRexford pext.bgpsecBest s cur (processAnn pext s selfAsn new fromRel)).map some
  else .ok cur

/-- The per-prefix loop body of `Policy.process_incoming_anns` (policy.py
115-122): fold `_get_new_best_ann` over the queued announcements, starting
from the current local-RIB entry. -/
def processPrefixQueue (ext : ExtChecks) (pext : ProcExt) (s : SettingsMap)
    (selfAsn : Nat) (og : Option Ann) (q : List Ann) (fromRel : Rel) :
    Except PyErr (Option Ann) :=
  q.foldlM (fun cur new => getNewBestAnn ext pext s selfAsn cur new fromRel) og

/-- `dict.get` over an insertion-ordered association list. -/
def dictGet : List (Pfx × Ann) → Pfx → Option Ann
  | [], _ => none
  | kv :: rest, k => if kv.1 = k then some kv.2 else dictGet rest k

/-- `dict[k] = v` over an insertion-ordered association list: update in
place when present, append otherwise. -/
def dictSet (m : List (Pfx × Ann)) (k : Pfx) (v : Ann) : List (Pfx × Ann) :=
  if m.any (fun kv => kv.1 == k) then
    m.map (fun kv => if kv.1 == k then (k, v) else kv)
  else m ++ [(k, v)]

/-- `Policy.process_incoming_anns` for one prefix of the receive queue
(policy.py 115-127): fold the queue, then write the winner back to the local
RIB under `current_ann.prefix` when it changed.  (Python compares `og_ann !=
current_ann` by object identity, as `Announcement` defines no `__eq__`; the
value comparison used here differs only when the queue reproduces the exact
stored value, in which case the write is a no-op anyway.) -/
def processIncomingForPrefix (ext : ExtChecks) (pext : ProcExt)
    (s : SettingsMap) (selfAsn : Nat) (rib : List (Pfx × Ann))
    (prefixKey : Pfx) (q : List Ann) (fromRel : Rel) :
    Except PyErr (List (Pfx × Ann)) :=
  match processPrefixQueue ext pext s selfAsn (dictGet rib prefixKey) q fromRel with
  | .error e => .error e
  | .ok none => .ok rib
  | .ok (some c) =>
      if dictGet rib prefixKey = some c then .ok rib
      else .ok (dictSet rib c.pfx c)

/-- The data the Gao-Rexford chain inspects once relationships, path length
and the tiebreak index are all that remain: (relationship value, path
length, `as_path[1]`-or-head). -/
def annKey (a : Ann) : Nat × Nat × Nat :=
  (a.recvRel.value, a.asPath.length, a.asPath.getD 1 0)

/-- Derived characterization of the chain: the processed newcomer wins
exactly when it has strictly higher relationship value, or equal
relationship and strictly shorter path, or equal both and strictly lower
neighbor ASN; every tie goes to the incumbent. -/
def newWinsB (c n : Ann) : Bool :=
  decide (c.recvRel.value < n.recvRel.value
    ∨ (c.recvRel.value = n.recvRel.value ∧ n.asPath.length < c.asPath.length)
    ∨ (c.recvRel.value = n.recvRel.value ∧ c.asPath.length = n.asPath.length
        ∧ n.asPath.getD 1 0 < c.asPath.getD 1 0))

/-- Left-biased best-of-two under `newWinsB`. -/
def bestTotal (c n : Ann) : Ann := if newWinsB c n then n else c

/-- The characterization of `gaoRexford` on a newcomer with at least two
path elements (every processed announcement has these), BGPsec disabled. -/
theorem gaoRexford_char (bb : Ann → Ann → Option Ann) (s : SettingsMap)
    (hs : s .bgpsec = false) (c n : Ann) (hn : 2 ≤ n.asPath.length) :
    gaoRexford bb s (some c) n = .ok (bestTotal c n) := by
  unfold gaoRexford getBestAnnByLocalPref getBestAnnByAsPath bestTotal newWinsB
  rw [hs]
  rcases Nat.lt_trichotomy c.recvRel.value n.recvRel.value with h1 | h1 | h1
  · simp [h1, Nat.lt_asymm h1, Nat.ne_of_lt h1]
  · rcases Nat.lt_trichotomy c.asPath.length n.asPath.length with h2 | h2 | h2
    · simp [h1, h2, Nat.lt_asymm h2, Nat.ne_of_lt h2, Nat.lt_irrefl]
    · have hc : 2 ≤ c.asPath.length := h2 ▸ hn
      have hmc : min c.asPath.length 1 = 1 := by omega
      have hmn : min n.asPath.length 1 = 1 := by omega
      obtain ⟨cv, hcv⟩ : ∃ v, c.asPath[1]? = some v := by
        have h : 1 < c.asPath.length := by omega
        exact ⟨_, List.getElem?_eq_getElem h⟩
      obtain ⟨nv, hnv⟩ : ∃ v, n.asPath[1]? = some v := by
        have h : 1 < n.asPath.length := by omega
        exact ⟨_, List.getElem?_eq_getElem h⟩
      have hcd : c.asPath.getD 1 0 = cv := by
        simp [List.getD_eq_getElem?_getD, hcv]
      have hnd : n.asPath.getD 1 0 = nv := by
        simp [List.getD_eq_getElem?_getD, hnv]
      unfold lowestNeighborAsnTiebreaker pyIndex
      rcases Nat.lt_or_ge nv cv with h3 | h3
      · simp [h1, h2, hmc, hmn, hcv, hnv, hcd, hnd, Nat.lt_irrefl,
          Nat.not_le_of_lt h3, h3, bind, Except.bind, pure, Except.pure]
      · simp [h1, h2, hmc, hmn, hcv, hnv, hcd, hnd, Nat.lt_irrefl, h3,
          Nat.not_lt_of_le h3, bind, Except.bind, pure, Except.pure]
    · simp [h1, h2, Nat.lt_asymm h2, Nat.lt_irrefl]
  · simp [h1, Nat.lt_asymm h1, (Nat.ne_of_lt h1).symm]

/-- The totalized per-announcement step of the queue fold; it coincides with
`getNewBestAnn` whenever the incoming announcement has a non-empty path and
the BGPsec-family settings are disabled (`getNewBestAnn_eq_step`). -/
def stepAnn (ext : ExtChecks) (s : SettingsMap) (selfAsn : Nat) (fromRel : Rel)
    (z : Option Ann) (a : Ann) : Option Ann :=
  if policyValidAnn ext s selfAsn a fromRel then
    match z with
    | none => some (annCopyProcess selfAsn fromRel a)
    | some c => some (bestTotal c (annCopyProcess selfAsn fromRel a))
  else z

theorem getNewBestAnn_eq_step (ext : ExtChecks) (pext : ProcExt)
    (s : SettingsMap) (selfAsn : Nat) (fromRel : Rel)
    (hS : s .bgpsec = false) (hI : s .bgpISec = false)
    (hT : s .bgpISecTransitive = false) (z : Option Ann) (a : Ann)
    (ha : a.asPath ≠ []) :
    getNewBestAnn ext pext s selfAsn z a fromRel
      = .ok (stepAnn ext s selfAsn fromRel z a) := by
  unfold getNewBestAnn stepAnn processAnn
  rw [hI, hT, hS]
  by_cases hv : policyValidAnn ext s selfAsn a fromRel = true
  · rw [if_pos hv, if_pos hv]
    simp only [Bool.or_self, Bool.false_eq_true, if_false]
    cases z with
    | none => rfl
    | some c =>
        have hlen : 2 ≤ (annCopyProcess selfAsn fromRel a).asPath.length := by
          unfold annCopyProcess
          cases hx : a.asPath with
          | nil => exact absurd hx ha
          | cons b t => simp [hx]
        rw [gaoRexford_char pext.bgpsecBest s hS c _ hlen]
        rfl
  · rw [if_neg hv, if_neg hv]

theorem processPrefixQueue_eq_foldl (ext : ExtChecks) (pext : ProcExt)
    (s : SettingsMap) (selfAsn : Nat) (fromRel : Rel)
    (hS : s .bgpsec = false) (hI : s .bgpISec = false)
    (hT : s .bgpISecTransitive = false) (q : List Ann)
    (hq : ∀ a ∈ q, a.asPath ≠ []) (og : Option Ann) :
    processPrefixQueue ext pext s selfAsn og q fromRel
      = .ok (q.foldl (stepAnn ext s selfAsn fromRel) og) := by
  induction q generalizing og with
  | nil => rfl
  | cons a t ih =>
      have ha : a.asPath ≠ [] := hq a (List.mem_cons_self a t)
      have ht : ∀ b ∈ t, b.asPath ≠ [] := fun b hb => hq b (List.mem_cons_of_mem a hb)
      unfold processPrefixQueue
      rw [List.foldlM_cons,
        getNewBestAnn_eq_step ext pext s selfAsn fromRel hS hI hT og a ha]
      simpa [bind, Except.bind, processPrefixQueue] using
        ih ht (stepAnn ext s selfAsn fromRel og a)

theorem bestTotal_comm (px py : Ann) (h : annKey px = annKey py → px = py) :
    bestTotal px py = bestTotal py px := by
  by_cases hk : annKey px = annKey py
  · rw [h hk]
  · have hk' : ¬(px.recvRel.value = py.recvRel.value
        ∧ px.asPath.length = py.asPath.length
        ∧ px.asPath.getD 1 0 = py.asPath.getD 1 0) := by
      intro he
      exact hk (by unfold annKey; rw [he.1, he.2.1, he.2.2])
    unfold bestTotal newWinsB
    split_ifs with h1 h2 <;>
      first
        | rfl
        | (exfalso; simp only [decide_eq_true_eq] at *; omega)

theorem bestTotal_right_comm (px py : Ann) (h : annKey px = annKey py → px = py)
    (w : Ann) :
    bestTotal (bestTotal w px) py = bestTotal (bestTotal w py) px := by
  by_cases hk : annKey px = annKey py
  · rw [h hk]
  · have hk' : ¬(px.recvRel.value = py.recvRel.value
        ∧ px.asPath.length = py.asPath.length
        ∧ px.asPath.getD 1 0 = py.asPath.getD 1 0) := by
      intro he
      exact hk (by unfold annKey; rw [he.1, he.2.1, he.2.2])
    unfold bestTotal newWinsB
    split_ifs <;>
      first
        | rfl
        | (exfalso; simp only [decide_eq_true_eq] at *; omega)

theorem stepAnn_comm (ext : ExtChecks) (s : SettingsMap) (selfAsn : Nat)
    (fromRel : Rel) (x y : Ann)
    (h : policyValidAnn ext s selfAsn x fromRel = true →
         policyValidAnn ext s selfAsn y fromRel = true →
         annKey (annCopyProcess selfAsn fromRel x)
           = annKey (annCopyProcess selfAsn fromRel y) →
         annCopyProcess selfAsn fromRel x = annCopyProcess selfAsn fromRel y)
    (z : Option Ann) :
    stepAnn ext s selfAsn fromRel (stepAnn ext s selfAsn fromRel z x) y
      = stepAnn ext s selfAsn fromRel (stepAnn ext s selfAsn fromRel z y) x := by
  by_cases hx : policyValidAnn ext s selfAsn x fromRel = true
  · by_cases hy : policyValidAnn ext s selfAsn y fromRel = true
    · have hcomm := h hx hy
      cases z with
      | none =>
          simp only [stepAnn, hx, hy, if_true]
          exact congrArg some (bestTotal_comm _ _ hcomm)
      | some w =>
          simp only [stepAnn, hx, hy, if_true]
          exact congrArg some (bestTotal_right_comm _ _ hcomm w)
    · simp [stepAnn, hy]
  · simp [stepAnn, hx]

/-- C2 amended: `process_incoming_anns` is order-independent over the
receive queue *provided* no two distinct valid announcements in the queue
tie on all three Gao-Rexford keys (relationship, processed path length,
neighbor ASN); without that proviso the left-biased tiebreak keeps whichever
tied announcement was folded first (see `c2_order_dependent_counterexample`). -/
theorem c2_order_independence_amended (ext : ExtChecks) (pext : ProcExt)
    (s : SettingsMap) (selfAsn : Nat) (fromRel : Rel)
    (rib : List (Pfx × Ann)) (prefixKey : Pfx) (q q' : List Ann)
    (hS : s .bgpsec = false) (hI : s .bgpISec = false)
    (hT : s .bgpISecTransitive = false)
    (hq : ∀ a ∈ q, a.asPath ≠ [])
    (hpair : ∀ x ∈ q, ∀ y ∈ q,
      policyValidAnn ext s selfAsn x fromRel = true →
      policyValidAnn ext s selfAsn y fromRel = true →
      annKey (annCopyProcess selfAsn fromRel x)
        = annKey (annCopyProcess selfAsn fromRel y) →
      annCopyProcess selfAsn fromRel x = annCopyProcess selfAsn fromRel y)
    (hperm : List.Perm q q') :
    processIncomingForPrefix ext pext s selfAsn rib prefixKey q fromRel
      = processIncomingForPrefix ext pext s selfAsn rib prefixKey q' fromRel := by
  have hq' : ∀ a ∈ q', a.asPath ≠ [] := fun a ha => hq a (hperm.symm.subset ha)
  have e3 : q.foldl (stepAnn ext s selfAsn fromRel) (dictGet rib prefixKey)
      = q'.foldl (stepAnn ext s selfAsn fromRel) (dictGet rib prefixKey) :=
    hperm.foldl_eq'
      (fun x hx y hy z => stepAnn_comm ext s selfAsn fromRel x y (hpair x hx y hy) z)
      (dictGet rib prefixKey)
  unfold processIncomingForPrefix
  rw [processPrefixQueue_eq_foldl ext pext s selfAsn fromRel hS hI hT q hq,
    processPrefixQueue_eq_foldl ext pext s selfAsn fromRel hS hI hT q' hq', e3]

/-- Queue announcement: path [5, 7], received from neighbor 5. -/
def cxA : Ann :=
  { pfx := pfx16, asPath := [5, 7], nextHopAsn := 5, recvRel := .origin,
    timestamp := 0, bgpsecNextAsn := none, bgpsecAsPath := [],
    onlyToCustomers := none, rovppBlackhole := false }

/-- Queue announcement: path [5, 8], also neighbor 5, same length. -/
def cxB : Ann :=
  { pfx := pfx16, asPath := [5, 8], nextHopAsn := 5, recvRel := .origin,
    timestamp := 0, bgpsecNextAsn := none, bgpsecAsPath := [],
    onlyToCustomers := none, rovppBlackhole := false }

/-- Queue announcement: path [6, 7], neighbor 6 (distinct tiebreak key). -/
def cxD : Ann :=
  { pfx := pfx16, asPath := [6, 7], nextHopAsn := 6, recvRel := .origin,
    timestamp := 0, bgpsecNextAsn := none, bgpsecAsPath := [],
    onlyToCustomers := none, rovppBlackhole := false }

/-- C2 counterexample: two valid announcements from the same neighbor 5 with
equal path length tie on every Gao-Rexford key, so the left-biased tiebreak
installs whichever was folded first: queue order [cxA, cxB] installs the
processed cxA, order [cxB, cxA] installs the processed cxB, and the two
installed announcements differ. -/
theorem c2_order_dependent_counterexample :
    processIncomingForPrefix trueExtChecks trivialProcExt allFalseSettings 10
        [] pfx16 [cxA, cxB] .customers
      = .ok [(pfx16, annCopyProcess 10 .customers cxA)] ∧
    processIncomingForPrefix trueExtChecks trivialProcExt allFalseSettings 10
        [] pfx16 [cxB, cxA] .customers
      = .ok [(pfx16, annCopyProcess 10 .customers cxB)] ∧
    annCopyProcess 10 .customers cxA ≠ annCopyProcess 10 .customers cxB := by
  refine ⟨rfl, rfl, by decide⟩

/-- C2 witness: the amended theorem applied to a concrete two-announcement
queue whose members have distinct neighbor ASNs. -/
theorem c2_order_independence_witness :
    processIncomingForPrefix trueExtChecks trivialProcExt allFalseSettings 10
        [] pfx16 [cxA, cxD] .customers
      = processIncomingForPrefix trueExtChecks trivialProcExt allFalseSettings 10
        [] pfx16 [cxD, cxA] .customers :=
  c2_order_independence_amended trueExtChecks trivialProcExt allFalseSettings 10
    .customers [] pfx16 [cxA, cxD] [cxD, cxA] rfl rfl rfl
    (by decide) (by decide) (List.Perm.swap cxD cxA [])

/-! ## Propagation (C3) -/

/-- `Announcement.copy(next_hop_asn=self.as_.asn)` as performed by
`Policy._propagate` (policy.py 336); `copy` re-runs `__init__`, so Python's
`or` falls back to `as_path[-1]` when the given ASN is 0. -/
def annCopySetNextHop (selfAsn : Nat) (a : Ann) : Except PyErr Ann :=
  (pyNextHopOr (some selfAsn) a.asPath).map fun nh => { a with nextHopAsn := nh }

/-- The triple returned by each `get_policy_propagate_vals` hook
(policy.py 357-366). -/
structure PolicyPropagateInfo where
  policyPropagateBool : Bool
  ann : Ann
  sendAnnBool : Bool

/-- The propagation-time hooks of the missing policy_extensions package
consulted by `Policy.policy_propagate`, each taking the neighbor ASN, the
announcement, the relationship being propagated to and the send
relationships. -/
structure PropagateHooks where
  bgpisec : Nat → Ann → Rel → List Rel → PolicyPropagateInfo
  bgpsec : Nat → Ann → Rel → List Rel → PolicyPropagateInfo
  otc : Nat → Ann → Rel → List Rel → PolicyPropagateInfo
  rovppV2i : Nat → Ann → Rel → List Rel → PolicyPropagateInfo
  rovppV2 : Nat → Ann → Rel → List Rel → PolicyPropagateInfo
  rovppV1 : Nat → Ann → Rel → List Rel → PolicyPropagateInfo
  originHijack : Nat → Ann → Rel → List Rel → PolicyPropagateInfo
  firstAsnStrip : Nat → Ann → Rel → List Rel → PolicyPropagateInfo

/-- The sequence of hook blocks `Policy.policy_propagate` executes for a
given settings map (policy.py 368-440): BGP-iSec elif BGPsec; OTC;
ROV++ v2i elif v2 elif v1; origin-prefix-hijack; first-ASN-stripping. -/
def hookChain (hooks : PropagateHooks) (s : SettingsMap) (nbr : Nat)
    (pt : Rel) (sr : List Rel) : List (Ann → PolicyPropagateInfo) :=
  (if s .bgpISec || s .bgpISecTransitive then [fun a => hooks.bgpisec nbr a pt sr]
   else if s .bgpsec then [fun a => hooks.bgpsec nbr a pt sr]
   else [])
  ++ (if s .onlyToCustomers then [fun a => hooks.otc nbr a pt sr] else [])
  ++ (if s .rovppV2iLite then [fun a => hooks.rovppV2i nbr a pt sr]
      else if s .rovppV2Lite then [fun a => hooks.rovppV2 nbr a pt sr]
      else if s .rovppV1Lite then [fun a => hooks.rovppV1 nbr a pt sr]
      else [])
  ++ (if s .originPrefixHijackCustomers then [fun a => hooks.originHijack nbr a pt sr] else [])
  ++ (if s .firstAsnStrippingPrefixHijackCustomers then [fun a => hooks.firstAsnStrip nbr a pt sr] else [])

/-- Run the hook blocks in order: a hook that claims the announcement
(`policy_propagate_bool`) replaces it; if it also clears `send_ann_bool`
the whole call returns immediately with nothing sent (`none`). -/
def runChain : List (Ann → PolicyPropagateInfo) → Ann → Option Ann
  | [], a => some a
  | f :: t, a =>
      let info := f a
      if info.policyPropagateBool then
        if info.sendAnnBool then runChain t info.ann else none
      else runChain t a

/-- `Policy.policy_propagate` (policy.py 350-446): returns (handled?,
enqueue performed inside the hook path).  The final `og_ann != ann`
comparison is by object identity in Python; in this value embedding a hook
that returns a value equal to its input counts as "unchanged", in which
case the caller's default enqueue sends the same value Python would have
sent from inside `policy_propagate`. -/
def policyPropagate (hooks : PropagateHooks) (s : SettingsMap) (nbr : Nat)
    (annArg : Ann) (pt : Rel) (sr : List Rel) : Bool × Option (Nat × Ann) :=
  match runChain (hookChain hooks s nbr pt sr) annArg with
  | none => (true, none)
  | some a5 => if a5 ≠ annArg then (true, some (nbr, a5)) else (false, none)

/-- The inner neighbor loop of `Policy._propagate` (policy.py 340-348),
accumulator form: collect, in order, the announcements enqueued on each
neighbor's recv_q. -/
def sendToNeighborsGo (hooks : PropagateHooks) (s : SettingsMap) (ann : Ann)
    (pt : Rel) (sr : List Rel) : List Nat → List (Nat × Ann) → List (Nat × Ann)
  | [], acc => acc
  | nbr :: rest, acc =>
      sendToNeighborsGo hooks s ann pt sr rest
        (if ann.recvRel ∈ sr then
           match policyPropagate hooks s nbr ann pt sr with
           | (true, none) => acc
           | (true, some e) => acc ++ [e]
           | (false, _) => acc ++ [(nbr, ann)]
         else acc)

/-- The inner neighbor loop of `Policy._propagate` (policy.py 340-348). -/
def sendToNeighbors (hooks : PropagateHooks) (s : SettingsMap)
    (nbrs : List Nat) (ann : Ann) (pt : Rel) (sr : List Rel) :
    List (Nat × Ann) :=
  sendToNeighborsGo hooks s ann pt sr nbrs []

/-- `Policy._propagate` (policy.py 321-348): for each local-RIB entry whose
`recv_relationship` is in `send_rels` (and when there are neighbors at all),
rewrite the next hop once and offer the copy to every neighbor. -/
def propagateFromRib (hooks : PropagateHooks) (s : SettingsMap) (selfAsn : Nat) :
    List (Pfx × Ann) → List Nat → Rel → List Rel → Except PyErr (List (Nat × Ann))
  | [], _, _, _ => .ok []
  | kv :: rest, nbrs, pt, sr =>
      if nbrs ≠ [] ∧ kv.2.recvRel ∈ sr then
        match annCopySetNextHop selfAsn kv.2 with
        | .error e => .error e
        | .ok ann =>
            match propagateFromRib hooks s selfAsn rest nbrs pt sr with
            | .error e => .error e
            | .ok out => .ok (sendToNeighbors hooks s nbrs ann pt sr ++ out)
      else propagateFromRib hooks s selfAsn rest nbrs pt sr

/-- `Policy.propagate_to_peers` (policy.py 309-313):
send_rels = {ORIGIN, CUSTOMERS}. -/
def propagateToPeers (hooks : PropagateHooks) (s : SettingsMap) (selfAsn : Nat)
    (rib : List (Pfx × Ann)) (peerAsns : List Nat) :
    Except PyErr (List (Nat × Ann)) :=
  propagateFromRib hooks s selfAsn rib peerAsns .peers [.origin, .customers]

/-- `Policy.propagate_to_providers` (policy.py 315-319):
send_rels = {ORIGIN, CUSTOMERS}. -/
def propagateToProviders (hooks : PropagateHooks) (s : SettingsMap) (selfAsn : Nat)
    (rib : List (Pfx × Ann)) (providerAsns : List Nat) :
    Except PyErr (List (Nat × Ann)) :=
  propagateFromRib hooks s selfAsn rib providerAsns .providers [.origin, .customers]

/-- `Policy.propagate_to_customers` (policy.py 298-307): every
relationship is sendable. -/
def propagateToCustomers (hooks : PropagateHooks) (s : SettingsMap) (selfAsn : Nat)
    (rib : List (Pfx × Ann)) (customerAsns : List Nat) :
    Except PyErr (List (Nat × Ann)) :=
  propagateFromRib hooks s selfAsn rib customerAsns .customers
    [.origin, .customers, .peers, .providers]

/-- Hooks never alter the `recv_relationship` of the announcement they
transform. -/
def HooksPreserveRel (hooks : PropagateHooks) : Prop :=
  (∀ nbr a pt sr, ((hooks.bgpisec nbr a pt sr).ann).recvRel = a.recvRel)
  ∧ (∀ nbr a pt sr, ((hooks.bgpsec nbr a pt sr).ann).recvRel = a.recvRel)
  ∧ (∀ nbr a pt sr, ((hooks.otc nbr a pt sr).ann).recvRel = a.recvRel)
  ∧ (∀ nbr a pt sr, ((hooks.rovppV2i nbr a pt sr).ann).recvRel = a.recvRel)
  ∧ (∀ nbr a pt sr, ((hooks.rovppV2 nbr a pt sr).ann).recvRel = a.recvRel)
  ∧ (∀ nbr a pt sr, ((hooks.rovppV1 nbr a pt sr).ann).recvRel = a.recvRel)
  ∧ (∀ nbr a pt sr, ((hooks.originHijack nbr a pt sr).ann).recvRel = a.recvRel)
  ∧ (∀ nbr a pt sr, ((hooks.firstAsnStrip nbr a pt sr).ann).recvRel = a.recvRel)

/-- Modelled from the spec: the `get_policy_propagate_vals` hook
implementations (BGPiSecTransitive, BGPSec, OnlyToCustomers, ROV++ v2i/v2/v1,
OriginPrefixHijackCustomers, FirstASNStrippingPrefixHijackCustomers) are
absent from src/.  Per spec §4.5: the BGPsec family adjusts the signed-path
fields when sending; OTC stamps `only_to_customers = self.asn` when unset on
egress to customers/providers; ROV++ suppresses blackhole announcements
towards non-customers; the two attacker hooks rewrite the as_path when
exporting to customers.  None of them touches `recv_relationship`. -/
def specHooks (selfAsn : Nat) : PropagateHooks :=
  { bgpisec := fun nbr a _ _ => ⟨true, { a with bgpsecNextAsn := some nbr }, true⟩
    bgpsec := fun nbr a _ _ => ⟨true, { a with bgpsecNextAsn := some nbr }, true⟩
    otc := fun _ a pt _ =>
      if (pt = Rel.customers ∨ pt = Rel.providers) ∧ a.onlyToCustomers = none then
        ⟨true, { a with onlyToCustomers := some selfAsn }, true⟩
      else ⟨false, a, false⟩
    rovppV2i := fun _ a pt _ =>
      if a.rovppBlackhole ∧ pt ≠ Rel.customers ∧ pt ≠ Rel.peers then
        ⟨true, a, false⟩
      else ⟨false, a, false⟩
    rovppV2 := fun _ a pt _ =>
      if a.rovppBlackhole ∧ pt ≠ Rel.customers ∧ pt ≠ Rel.peers then
        ⟨true, a, false⟩
      else ⟨false, a, false⟩
    rovppV1 := fun _ a pt _ =>
      if a.rovppBlackhole ∧ pt ≠ Rel.customers then ⟨true, a, false⟩
      else ⟨false, a, false⟩
    originHijack := fun _ a pt _ =>
      if pt = Rel.customers then
        ⟨true, { a with asPath := [selfAsn, a.asPath.getLastD selfAsn] }, true⟩
      else ⟨false, a, false⟩
    firstAsnStrip := fun _ a pt _ =>
      if pt = Rel.customers then ⟨true, { a with asPath := a.asPath.drop 1 }, true⟩
      else ⟨false, a, false⟩ }

theorem specHooks_preserve_rel (selfAsn : Nat) :
    HooksPreserveRel (specHooks selfAsn) := by
  refine ⟨fun nbr a pt sr => rfl, fun nbr a pt sr => rfl, ?_, ?_, ?_, ?_, ?_, ?_⟩
    <;> intro nbr a pt sr <;> unfold specHooks <;> dsimp only <;> split_ifs <;> rfl

theorem hookChain_preserve_rel (hooks : PropagateHooks) (hp : HooksPreserveRel hooks)
    (s : SettingsMap) (nbr : Nat) (pt : Rel) (sr : List Rel) :
    ∀ f ∈ hookChain hooks s nbr pt sr, ∀ a, ((f a).ann).recvRel = a.recvRel := by
  obtain ⟨h1, h2, h3, h4, h5, h6, h7, h8⟩ := hp
  have happ : ∀ (l1 l2 : List (Ann → PolicyPropagateInfo)),
      (∀ g ∈ l1, ∀ a, ((g a).ann).recvRel = a.recvRel) →
      (∀ g ∈ l2, ∀ a, ((g a).ann).recvRel = a.recvRel) →
      ∀ g ∈ l1 ++ l2, ∀ a, ((g a).ann).recvRel = a.recvRel := by
    intro l1 l2 p1 p2 g hg
    rcases List.mem_append.mp hg with hg | hg
    · exact p1 g hg
    · exact p2 g hg
  unfold hookChain
  refine happ _ _ (happ _ _ (happ _ _ (happ _ _ ?_ ?_) ?_) ?_) ?_
  · split_ifs <;> intro g hg <;>
      first
        | exact absurd hg (List.not_mem_nil g)
        | (have hg2 := List.mem_singleton.mp hg
           subst hg2
           first
             | exact fun a => h1 nbr a pt sr
             | exact fun a => h2 nbr a pt sr)
  · split_ifs <;> intro g hg <;>
      first
        | exact absurd hg (List.not_mem_nil g)
        | (have hg2 := List.mem_singleton.mp hg
           subst hg2
           exact fun a => h3 nbr a pt sr)
  · split_ifs <;> intro g hg <;>
      first
        | exact absurd hg (List.not_mem_nil g)
        | (have hg2 := List.mem_singleton.mp hg
           subst hg2
           first
             | exact fun a => h4 nbr a pt sr
             | exact fun a => h5 nbr a pt sr
             | exact fun a => h6 nbr a pt sr)
  · split_ifs <;> intro g hg <;>
      first
        | exact absurd hg (List.not_mem_nil g)
        | (have hg2 := List.mem_singleton.mp hg
           subst hg2
           exact fun a => h7 nbr a pt sr)
  · split_ifs <;> intro g hg <;>
      first
        | exact absurd hg (List.not_mem_nil g)
        | (have hg2 := List.mem_singleton.mp hg
           subst hg2
           exact fun a => h8 nbr a pt sr)

theorem runChain_preserve_rel (chain : List (Ann → PolicyPropagateInfo))
    (hp : ∀ f ∈ chain, ∀ a, ((f a).ann).recvRel = a.recvRel) :
    ∀ a a5, runChain chain a = some a5 → a5.recvRel = a.recvRel := by
  induction chain with
  | nil =>
      intro a a5 h
      simp only [runChain, Option.some.injEq] at h
      subst h
      rfl
  | cons f t ih =>
      intro a a5 h
      have hf := hp f (List.mem_cons_self f t)
      have ht : ∀ g ∈ t, ∀ b, ((g b).ann).recvRel = b.recvRel :=
        fun g hg => hp g (List.mem_cons_of_mem f hg)
      unfold runChain at h
      by_cases h1 : (f a).policyPropagateBool = true
      · rw [if_pos h1] at h
        by_cases h2 : (f a).sendAnnBool = true
        · rw [if_pos h2] at h
          have := ih ht ((f a).ann) a5 h
          rw [this, hf a]
        · rw [if_neg h2] at h
          exact Option.noConfusion h
      · rw [if_neg h1] at h
        exact ih ht a a5 h

theorem policyPropagate_enqueue_rel (hooks : PropagateHooks)
    (hp : HooksPreserveRel hooks) (s : SettingsMap) (nbr : Nat) (annArg : Ann)
    (pt : Rel) (sr : List Rel) (b : Bool) (n2 : Nat) (a2 : Ann)
    (h : policyPropagate hooks s nbr annArg pt sr = (b, some (n2, a2))) :
    a2.recvRel = annArg.recvRel := by
  unfold policyPropagate at h
  split at h
  · exact absurd (congrArg Prod.snd h) (by simp)
  · rename_i a5 hsome
    split_ifs at h with hne
    · have h2 : some (nbr, a5) = some (n2, a2) := congrArg Prod.snd h
      have h3 : a5 = a2 := congrArg Prod.snd (Option.some.inj h2)
      rw [← h3]
      exact runChain_preserve_rel _ (hookChain_preserve_rel hooks hp s nbr pt sr)
        annArg a5 hsome
    · exact absurd (congrArg Prod.snd h) (by simp)

theorem sendToNeighborsGo_rel (hooks : PropagateHooks)
    (hp : HooksPreserveRel hooks) (s : SettingsMap) (ann : Ann) (pt : Rel)
    (sr : List Rel) :
    ∀ (nbrs : List Nat) (acc : List (Nat × Ann)),
      (∀ e ∈ acc, e.2.recvRel = ann.recvRel) →
      ∀ e ∈ sendToNeighborsGo hooks s ann pt sr nbrs acc,
        e.2.recvRel = ann.recvRel := by
  intro nbrs
  induction nbrs with
  | nil => intro acc hacc e he; exact hacc e he
  | cons nbr rest ih =>
      intro acc hacc e he
      unfold sendToNeighborsGo at he
      refine ih _ ?_ e he
      by_cases hmem : ann.recvRel ∈ sr
      · rw [if_pos hmem]
        cases hpp : policyPropagate hooks s nbr ann pt sr with
        | mk handled enq =>
            cases handled with
            | true =>
                cases enq with
                | none => exact hacc
                | some e2 =>
                    intro e3 he3
                    rcases List.mem_append.mp he3 with h3 | h3
                    · exact hacc e3 h3
                    · have he2 : e3 = e2 := List.mem_singleton.mp h3
                      subst he2
                      exact policyPropagate_enqueue_rel hooks hp s nbr ann pt sr
                        true e3.1 e3.2 (by rw [hpp])
            | false =>
                intro e3 he3
                rcases List.mem_append.mp he3 with h3 | h3
                · exact hacc e3 h3
                · have he2 : e3 = (nbr, ann) := List.mem_singleton.mp h3
                  subst he2
                  rfl
      · rw [if_neg hmem]
        exact hacc

theorem sendToNeighbors_rel (hooks : PropagateHooks) (hp : HooksPreserveRel hooks)
    (s : SettingsMap) (nbrs : List Nat) (ann : Ann) (pt : Rel) (sr : List Rel) :
    ∀ e ∈ sendToNeighbors hooks s nbrs ann pt sr, e.2.recvRel = ann.recvRel := by
  unfold sendToNeighbors
  exact sendToNeighborsGo_rel hooks hp s ann pt sr nbrs []
    (fun e he => absurd he (List.not_mem_nil e))

theorem annCopySetNextHop_rel (selfAsn : Nat) (a b : Ann)
    (h : annCopySetNextHop selfAsn a = .ok b) : b.recvRel = a.recvRel := by
  unfold annCopySetNextHop at h
  cases hnh : pyNextHopOr (some selfAsn) a.asPath with
  | error e => rw [hnh] at h; exact Except.noConfusion h
  | ok nh =>
      rw [hnh] at h
      injection h with h2
      rw [← h2]

theorem propagateFromRib_rel (hooks : PropagateHooks) (hp : HooksPreserveRel hooks)
    (s : SettingsMap) (selfAsn : Nat) :
    ∀ (rib : List (Pfx × Ann)) (nbrs : List Nat) (pt : Rel) (sr : List Rel)
      (out : List (Nat × Ann)),
      propagateFromRib hooks s selfAsn rib nbrs pt sr = .ok out →
      ∀ e ∈ out, e.2.recvRel ∈ sr := by
  intro rib
  induction rib with
  | nil =>
      intro nbrs pt sr out h e he
      unfold propagateFromRib at h
      injection h with h2
      subst h2
      exact absurd he (List.not_mem_nil e)
  | cons kv rest ih =>
      intro nbrs pt sr out h e he
      unfold propagateFromRib at h
      by_cases hguard : nbrs ≠ [] ∧ kv.2.recvRel ∈ sr
      · rw [if_pos hguard] at h
        cases hcopy : annCopySetNextHop selfAsn kv.2 with
        | error er => rw [hcopy] at h; exact Except.noConfusion h
        | ok ann =>
            rw [hcopy] at h
            cases hrest : propagateFromRib hooks s selfAsn rest nbrs pt sr with
            | error er => rw [hrest] at h; exact Except.noConfusion h
            | ok out2 =>
                rw [hrest] at h
                injection h with h2
                subst h2
                rcases List.mem_append.mp he with h1 | h1
                · have := sendToNeighbors_rel hooks hp s nbrs ann pt sr e h1
                  rw [this, annCopySetNextHop_rel selfAsn kv.2 ann hcopy]
                  exact hguard.2
                · exact ih nbrs pt sr out2 hrest e h1
      · rw [if_neg hguard] at h
        exact ih nbrs pt sr out h e he

/-- C3: with the spec-modelled propagation hooks, `propagate_to_peers` and
`propagate_to_providers` only ever enqueue announcements whose
`recv_relationship` is ORIGIN or CUSTOMERS on a neighbor's recv_q; in
particular no announcement with recv_relationship PROVIDERS or PEERS is
ever sent to a peer or a provider. -/
theorem c3_valley_free_exports (s : SettingsMap) (selfAsn : Nat)
    (rib : List (Pfx × Ann)) (nbrs : List Nat) (out : List (Nat × Ann))
    (n : Nat) (a : Ann)
    (h : (propagateToPeers (specHooks selfAsn) s selfAsn rib nbrs = .ok out
            ∨ propagateToProviders (specHooks selfAsn) s selfAsn rib nbrs = .ok out)
         ∧ (n, a) ∈ out) :
    (a.recvRel = .origin ∨ a.recvRel = .customers)
      ∧ a.recvRel ≠ .providers ∧ a.recvRel ≠ .peers := by
  have hmem : a.recvRel ∈ [Rel.origin, Rel.customers] := by
    rcases h.1 with h1 | h1
    · exact propagateFromRib_rel (specHooks selfAsn)
        (specHooks_preserve_rel selfAsn) s selfAsn rib nbrs .peers
        [.origin, .customers] out h1 (n, a) h.2
    · exact propagateFromRib_rel (specHooks selfAsn)
        (specHooks_preserve_rel selfAsn) s selfAsn rib nbrs .providers
        [.origin, .customers] out h1 (n, a) h.2
  have hcases : a.recvRel = .origin ∨ a.recvRel = .customers := by
    rcases List.mem_cons.mp hmem with h1 | h1
    · exact Or.inl h1
    · exact Or.inr (List.mem_singleton.mp h1)
  refine ⟨hcases, ?_, ?_⟩ <;> rcases hcases with h1 | h1 <;> rw [h1] <;>
    intro hcontra <;> cases hcontra

/-- A seeded (ORIGIN) local-RIB entry used for the C3 witness. -/
def seedAnnC3 : Ann :=
  { pfx := pfx16, asPath := [1], nextHopAsn := 1, recvRel := .origin,
    timestamp := 0, bgpsecNextAsn := none, bgpsecAsPath := [],
    onlyToCustomers := none, rovppBlackhole := false }

/-- C3 witness: the theorem applied to a concrete one-entry RIB whose seeded
announcement is exported to peer AS 2. -/
theorem c3_valley_free_exports_witness :
    (seedAnnC3.recvRel = .origin ∨ seedAnnC3.recvRel = .customers)
      ∧ seedAnnC3.recvRel ≠ .providers ∧ seedAnnC3.recvRel ≠ .peers :=
  c3_valley_free_exports allFalseSettings 1 [(pfx16, seedAnnC3)] [2]
    [(2, seedAnnC3)] 2 seedAnnC3 ⟨Or.inl (by rfl), by decide⟩

/-! ## get_most_specific_ann and its cache (C8) -/

/-- The cache key `(dest_ip_addr, tuple(list(self.local_rib.keys())))`
(policy.py 477-478). -/
abbrev CKey := Pfx × List Pfx

/-- The shared cache state: `Policy.most_specific_prefix_cache` is a
class-level dict (policy.py 42-44), one object for all Policy instances;
it is threaded explicitly here. -/
abbrev Cache := List (CKey × Option Pfx)

/-- `dict.get` on the cache. -/
def cacheGet : Cache → CKey → Option (Option Pfx)
  | [], _ => none
  | kv :: rest, k => if kv.1 = k then some kv.2 else cacheGet rest k

/-- `dict[k] = v` on the cache: in-place update when the key is present
(keeping its slot), append otherwise. -/
def cacheSet (c : Cache) (k : CKey) (v : Option Pfx) : Cache :=
  if c.any (fun kv => kv.1 == k) then
    c.map (fun kv => if kv.1 == k then (k, v) else kv)
  else c ++ [(k, v)]

/-- The longest-prefix match of policy.py 482-487:
`sorted((p for p in rib if p.supernet_of(dst)), key=prefixlen,
reverse=True)[0]`.  Python's sort is stable, so the winner is the first
RIB key (in insertion order) among those of maximal prefix length. -/
def mostSpecificMatch (ribKeys : List Pfx) (dst : Pfx) : Option Pfx :=
  (ribKeys.filter (fun p => p.supernetOfB dst)).foldl
    (fun acc p =>
      match acc with
      | none => some p
      | some q => if p.prefixlen > q.prefixlen then some p else some q)
    none

/-- Lines 473-479 of policy.py: the cached most-specific prefix, read only
when the RIB is small; `cache.get(key)` cannot distinguish a stored `None`
from a miss, so both yield `none` here. -/
def gmsaCached (rib : List (Pfx × Ann)) (cache : Cache) (dst : Pfx) : Option Pfx :=
  if rib.length < 10 then
    (cacheGet cache (dst, rib.map Prod.fst)).getD none
  else none

/-- Lines 481-487 of policy.py: recompute the longest matching prefix when
the cache produced nothing. -/
def gmsaMsp (rib : List (Pfx × Ann)) (cache : Cache) (dst : Pfx) : Option Pfx :=
  match gmsaCached rib cache dst with
  | some p => some p
  | none => mostSpecificMatch (rib.map Prod.fst) dst

/-- Line 498 of policy.py:
`return self.local_rib[most_specific_prefix] if most_specific_prefix else
None`; the subscript raises KeyError when the (cached) prefix is not a
current RIB key. -/
def gmsaRes (rib : List (Pfx × Ann)) (cache : Cache) (dst : Pfx) :
    Except PyErr (Option Ann) :=
  match gmsaMsp rib cache dst with
  | none => .ok none
  | some p =>
      match dictGet rib p with
      | some a => .ok (some a)
      | none => .error .keyError

/-- `Policy.get_most_specific_ann` (policy.py 464-498).  The write-back at
lines 490-496 happens before the return: when the RIB is small the result
is stored under `(dst, rib keys)`, and if the cache then holds more than 10
entries the eviction `self.most_specific_prefix_cache.pop()` calls
`dict.pop` with no key — a TypeError, embedded as `.error .typeError`. -/
def getMostSpecificAnn (rib : List (Pfx × Ann)) (cache : Cache) (dst : Pfx) :
    Except PyErr (Option Ann × Cache) :=
  if rib.length < 10 then
    if (cacheSet cache (dst, rib.map Prod.fst) (gmsaMsp rib cache dst)).length > 10
    then .error .typeError
    else (gmsaRes rib cache dst).map
      (fun r => (r, cacheSet cache (dst, rib.map Prod.fst) (gmsaMsp rib cache dst)))
  else (gmsaRes rib cache dst).map (fun r => (r, cache))

/-- A sequence of `get_most_specific_ann` calls, each by the policy owning
the given local RIB, all sharing the one class-level cache. -/
def runPolicyLookups : List (List (Pfx × Ann) × Pfx) → Cache → Except PyErr Cache
  | [], c => .ok c
  | (rib, dst) :: rest, c =>
      match getMostSpecificAnn rib c dst with
      | .error e => .error e
      | .ok (_, c2) => runPolicyLookups rest c2

/-- Local RIB of the first policy. -/
def c8rib1 : List (Pfx × Ann) := [(pfx16, seedAnnC3)]

/-- A different prefix for the second policy's RIB. -/
def pfx24 : Pfx := ⟨0, 120⟩

/-- Local RIB of the second policy. -/
def c8rib2 : List (Pfx × Ann) := [(pfx24, seedAnnC3)]

/-- C8 counterexample: the cache is shared class state and the eviction is
broken.  Ten lookups by the first policy fill the shared cache with ten
entries; the very next lookup by a *different* policy (fresh key) pushes it
to eleven, and `dict.pop()` raises TypeError instead of evicting — even
though that second policy on its own (empty cache) succeeds.  So an entry
written during one policy's lookup is observable through another policy's
lookup, and the bound is enforced by crashing, not evicting. -/
theorem c8_shared_cache_eviction_raises :
    runPolicyLookups
        (((List.range 10).map (fun i => (c8rib1, mkIPAddr i)))
          ++ [(c8rib2, mkIPAddr 100)]) []
      = .error .typeError ∧
    runPolicyLookups [(c8rib2, mkIPAddr 100)] []
      = .ok [((mkIPAddr 100, [pfx24]), some pfx24)] := by
  exact ⟨by rfl, by rfl⟩

/-- Every cached value is one of its key's RIB prefixes. -/
def CacheWF (cache : Cache) : Prop :=
  ∀ k v, (k, some v) ∈ cache → v ∈ k.2

theorem mostSpecificMatch_mem (ribKeys : List Pfx) (dst : Pfx) (p : Pfx)
    (h : mostSpecificMatch ribKeys dst = some p) : p ∈ ribKeys := by
  have haux : ∀ (l : List Pfx) (acc : Option Pfx),
      l.foldl
        (fun acc p =>
          match acc with
          | none => some p
          | some q => if p.prefixlen > q.prefixlen then some p else some q)
        acc = some p →
      acc = some p ∨ p ∈ l := by
    intro l
    induction l with
    | nil => intro acc h2; exact Or.inl h2
    | cons x t ih =>
        intro acc h2
        rw [List.foldl_cons] at h2
        rcases ih _ h2 with h3 | h3
        · cases acc with
          | none =>
              simp only at h3
              right
              rw [← Option.some.inj h3]
              exact List.mem_cons_self x t
          | some q =>
              simp only at h3
              by_cases hgt : x.prefixlen > q.prefixlen
              · rw [if_pos hgt] at h3
                right
                rw [← Option.some.inj h3]
                exact List.mem_cons_self x t
              · rw [if_neg hgt] at h3
                exact Or.inl h3
        · exact Or.inr (List.mem_cons_of_mem x h3)
  unfold mostSpecificMatch at h
  rcases haux _ _ h with h2 | h2
  · exact Option.noConfusion h2
  · exact List.mem_of_mem_filter h2

theorem dictGet_of_mem_keys (rib : List (Pfx × Ann)) (p : Pfx)
    (h : p ∈ rib.map Prod.fst) : ∃ a, dictGet rib p = some a := by
  induction rib with
  | nil => exact absurd h (List.not_mem_nil p)
  | cons kv rest ih =>
      rw [List.map_cons] at h
      rcases List.mem_cons.mp h with h1 | h1
      · refine ⟨kv.2, ?_⟩
        unfold dictGet
        rw [if_pos h1.symm]
      · by_cases he : kv.1 = p
        · refine ⟨kv.2, ?_⟩
          unfold dictGet
          rw [if_pos he]
        · obtain ⟨a, ha⟩ := ih h1
          refine ⟨a, ?_⟩
          unfold dictGet
          rw [if_neg he]
          exact ha

theorem cacheGet_some_mem (cache : Cache) (k : CKey) (v : Option Pfx)
    (h : cacheGet cache k = some v) : (k, v) ∈ cache := by
  induction cache with
  | nil => exact Option.noConfusion h
  | cons kv rest ih =>
      unfold cacheGet at h
      by_cases he : kv.1 = k
      · rw [if_pos he] at h
        have hv : kv.2 = v := Option.some.inj h
        rcases kv with ⟨k1, v1⟩
        simp only at he hv
        subst he
        subst hv
        exact List.mem_cons_self _ rest
      · rw [if_neg he] at h
        exact List.mem_cons_of_mem kv (ih h)

theorem cacheSet_length_present (cache : Cache) (k : CKey) (v : Option Pfx)
    (h : cache.any (fun kv => kv.1 == k) = true) :
    (cacheSet cache k v).length = cache.length := by
  unfold cacheSet
  rw [if_pos h, List.length_map]

theorem cacheSet_length_absent (cache : Cache) (k : CKey) (v : Option Pfx)
    (h : ¬(cache.any (fun kv => kv.1 == k) = true)) :
    (cacheSet cache k v).length = cache.length + 1 := by
  unfold cacheSet
  rw [if_neg h, List.length_append, List.length_singleton]

theorem cacheSet_wf (cache : Cache) (k : CKey) (v : Option Pfx)
    (hwf : CacheWF cache) (hv : ∀ p, v = some p → p ∈ k.2) :
    CacheWF (cacheSet cache k v) := by
  intro k2 v2 hmem
  unfold cacheSet at hmem
  by_cases hpres : cache.any (fun kv => kv.1 == k) = true
  · rw [if_pos hpres] at hmem
    obtain ⟨kv, hkv, heq⟩ := List.mem_map.mp hmem
    by_cases he : kv.1 = k
    · rw [if_pos (beq_iff_eq.mpr he)] at heq
      have hk2 : k2 = k := (congrArg Prod.fst heq).symm
      have hv2 : v = some v2 := (congrArg Prod.snd heq)
      rw [hk2]
      exact hv v2 hv2
    · rw [if_neg (fun hb => he (beq_iff_eq.mp hb))] at heq
      exact hwf k2 v2 (heq ▸ hkv)
  · rw [if_neg hpres] at hmem
    rcases List.mem_append.mp hmem with h1 | h1
    · exact hwf k2 v2 h1
    · have h2 : (k2, some v2) = (k, v) := List.mem_singleton.mp h1
      have hk2 : k2 = k := congrArg Prod.fst h2
      have hv2 : v = some v2 := (congrArg Prod.snd h2).symm
      rw [hk2]
      exact hv v2 hv2

/-- C8 amended: the cache is the class-level
`Policy.most_specific_prefix_cache`, shared by every Policy instance, not
per-instance.  Writes happen only when the local RIB has fewer than 10
entries; starting from a well-formed cache of at most 10 entries a call
either succeeds leaving at most 10 well-formed entries, or — exactly when
it would have to evict the 11th entry — raises TypeError
(`dict.pop()` with no argument) instead of evicting. -/
theorem gmsaMsp_mem (rib : List (Pfx × Ann)) (cache : Cache) (dst : Pfx)
    (hwf : CacheWF cache) (p : Pfx) (hp : gmsaMsp rib cache dst = some p) :
    p ∈ rib.map Prod.fst := by
  unfold gmsaMsp at hp
  cases hcg : gmsaCached rib cache dst with
  | none =>
      rw [hcg] at hp
      exact mostSpecificMatch_mem _ dst p hp
  | some q =>
      rw [hcg] at hp
      have hq : q = p := Option.some.inj hp
      unfold gmsaCached at hcg
      by_cases hrib : rib.length < 10
      · rw [if_pos hrib] at hcg
        cases hcg2 : cacheGet cache (dst, rib.map Prod.fst) with
        | none => rw [hcg2] at hcg; exact Option.noConfusion hcg
        | some v =>
            rw [hcg2] at hcg
            have hv : v = some q := hcg
            have hmem := cacheGet_some_mem cache (dst, rib.map Prod.fst) v hcg2
            rw [hv] at hmem
            have := hwf (dst, rib.map Prod.fst) q hmem
            rw [← hq]
            exact this
      · rw [if_neg hrib] at hcg
        exact Option.noConfusion hcg

theorem gmsaRes_ok (rib : List (Pfx × Ann)) (cache : Cache) (dst : Pfx)
    (hwf : CacheWF cache) : ∃ r, gmsaRes rib cache dst = .ok r := by
  unfold gmsaRes
  cases hmsp : gmsaMsp rib cache dst with
  | none => exact ⟨none, rfl⟩
  | some p =>
      obtain ⟨a, ha⟩ := dictGet_of_mem_keys rib p
        (gmsaMsp_mem rib cache dst hwf p hmsp)
      exact ⟨some a, by simp only [ha]⟩

/-- C8 amended: the cache is the class-level
`Policy.most_specific_prefix_cache`, shared by every Policy instance, not
per-instance (see `c8_shared_cache_eviction_raises`).  Writes happen only
when the local RIB has fewer than 10 entries; starting from a well-formed
cache of at most 10 entries a call either succeeds leaving at most 10
well-formed entries, or — exactly when it would have to evict an 11th
entry — raises TypeError (`dict.pop()` with no argument) instead of
evicting. -/
theorem c8_cache_bound_amended (rib : List (Pfx × Ann)) (cache : Cache)
    (dst : Pfx) (hc : cache.length ≤ 10) (hwf : CacheWF cache) :
    (∃ r cache2, getMostSpecificAnn rib cache dst = .ok (r, cache2)
      ∧ cache2.length ≤ 10 ∧ CacheWF cache2)
    ∨ getMostSpecificAnn rib cache dst = .error .typeError := by
  obtain ⟨r, hr⟩ := gmsaRes_ok rib cache dst hwf
  by_cases hrib : rib.length < 10
  · have hwf2 : CacheWF (cacheSet cache (dst, rib.map Prod.fst) (gmsaMsp rib cache dst)) :=
      cacheSet_wf cache _ _ hwf (fun p hp => gmsaMsp_mem rib cache dst hwf p hp)
    by_cases hpres : cache.any (fun kv => kv.1 == (dst, rib.map Prod.fst)) = true
    · left
      have hlen := cacheSet_length_present cache (dst, rib.map Prod.fst)
        (gmsaMsp rib cache dst) hpres
      have hngt : ¬((cacheSet cache (dst, rib.map Prod.fst)
          (gmsaMsp rib cache dst)).length > 10) := by omega
      refine ⟨r, cacheSet cache (dst, rib.map Prod.fst) (gmsaMsp rib cache dst),
        ?_, by omega, hwf2⟩
      unfold getMostSpecificAnn
      rw [if_pos hrib, if_neg hngt, hr]
      rfl
    · have hlen := cacheSet_length_absent cache (dst, rib.map Prod.fst)
        (gmsaMsp rib cache dst) hpres
      by_cases hov : cache.length + 1 > 10
      · right
        unfold getMostSpecificAnn
        rw [if_pos hrib, if_pos (by omega)]
      · left
        have hngt : ¬((cacheSet cache (dst, rib.map Prod.fst)
            (gmsaMsp rib cache dst)).length > 10) := by omega
        refine ⟨r, cacheSet cache (dst, rib.map Prod.fst) (gmsaMsp rib cache dst),
          ?_, by omega, hwf2⟩
        unfold getMostSpecificAnn
        rw [if_pos hrib, if_neg hngt, hr]
        rfl
  · left
    refine ⟨r, cache, ?_, hc, hwf⟩
    unfold getMostSpecificAnn
    rw [if_neg hrib, hr]
    rfl

/-- C8 witness: the amended theorem applied to a concrete small RIB, a
one-entry well-formed cache and a concrete destination (the successful
disjunct holds there). -/
theorem c8_cache_bound_witness :
    (∃ r cache2,
        getMostSpecificAnn c8rib1 [((mkIPAddr 0, [pfx16]), some pfx16)] (mkIPAddr 1)
          = .ok (r, cache2)
      ∧ cache2.length ≤ 10 ∧ CacheWF cache2)
    ∨ getMostSpecificAnn c8rib1 [((mkIPAddr 0, [pfx16]), some pfx16)] (mkIPAddr 1)
      = .error .typeError :=
  c8_cache_bound_amended c8rib1 [((mkIPAddr 0, [pfx16]), some pfx16)] (mkIPAddr 1)
    (by decide)
    (by
      intro k v hmem
      have h2 : (k, some v) = ((mkIPAddr 0, [pfx16]), some pfx16) :=
        List.mem_singleton.mp hmem
      have hk : k = (mkIPAddr 0, [pfx16]) := congrArg Prod.fst h2
      have hv : (some v : Option Pfx) = some pfx16 := congrArg Prod.snd h2
      rw [hk, Option.some.inj hv]
      exact List.mem_singleton.mpr rfl)

/-! ## Data-plane traceback (C5, C10) -/

/-- Modelled from the spec: the `Outcomes` enum is imported from
shared/enums.py but absent from src/; members and wire values follow
spec §6 (`ATTACKER_SUCCESS=0, LEGITIMATE_ORIGIN_SUCCESS=1, DISCONNECTED=2,
DATA_PLANE_LOOP=3`, `UNDETERMINED` internal), with the source's
`VICTIM_SUCCESS` name for the legitimate-origin outcome. -/
inductive Outcome
  | attackerSuccess
  | victimSuccess
  | disconnected
  | dataPlaneLoop
  | undetermined
  deriving DecidableEq, Repr

/-- An AS node as the traceback sees it: its ASN and its routing policy's
local RIB (consulted through `get_most_specific_ann`). -/
structure ASNode where
  asn : Nat
  localRib : List (Pfx × Ann)

/-- The context of a traceback: the graph's `as_dict` and the scenario's
attacker / victim ASN sets (`self.scenario.attacker_asns` /
`victim_asns` in `_determine_data_plane_outcome`). -/
structure TracebackCtx where
  asDict : Nat → Option ASNode
  attackerAsns : List Nat
  victimAsns : List Nat

/-- `Policy.passes_sav` (policy.py 500-503) and `RoutingPolicy.passes_sav`
(routing_policy.py 355-358): the base implementation returns True for every
destination address and announcement. -/
def basePassesSav (dst : Pfx) (mostSpecificAnn : Ann) : Bool := true

/-- The DISCONNECTED disjunction of `_determine_data_plane_outcome`
(data_plane_packet_propagator.py 51-58): no announcement, or a
single-element path, or an ORIGIN relationship, or a self next hop, or
failing source address validation. -/
def disconnectedCond (selfAsn : Nat) (sav : Pfx → Ann → Bool) (dst : Pfx)
    (mostSpecificAnn : Option Ann) : Bool :=
  match mostSpecificAnn with
  | none => true
  | some a =>
      decide (a.asPath.length = 1)
      || decide (a.recvRel.value = Rel.origin.value)
      || decide (a.nextHopAsn = selfAsn)
      || !(sav dst a)

/-- `DataPlanePacketPropagator._determine_data_plane_outcome`
(data_plane_packet_propagator.py 43-62), with the policy's `passes_sav` as
a parameter.  The checks run in source order: attacker, victim,
disconnected, only then the visited-set / 64-entry loop guard. -/
def determineDataPlaneOutcome (ctx : TracebackCtx) (sav : Pfx → Ann → Bool)
    (asObj : ASNode) (dst : Pfx) (mostSpecificAnn : Option Ann)
    (visitedAsns : List Nat) : Outcome :=
  if asObj.asn ∈ ctx.attackerAsns then .attackerSuccess
  else if asObj.asn ∈ ctx.victimAsns then .victimSuccess
  else if disconnectedCond asObj.asn sav dst mostSpecificAnn then .disconnected
  else if asObj.asn ∈ visitedAsns ∨ visitedAsns.length > 64 then .dataPlaneLoop
  else .undetermined

/-- An UNDETERMINED outcome implies the loop guard did not fire: the AS is
not in the visited set and the set has at most 64 entries. -/
theorem determine_undetermined_bounds (ctx : TracebackCtx)
    (sav : Pfx → Ann → Bool) (asObj : ASNode) (dst : Pfx)
    (msa : Option Ann) (visited : List Nat)
    (h : determineDataPlaneOutcome ctx sav asObj dst msa visited = .undetermined) :
    asObj.asn ∉ visited ∧ visited.length ≤ 64 := by
  unfold determineDataPlaneOutcome at h
  by_cases h1 : asObj.asn ∈ ctx.attackerAsns
  · rw [if_pos h1] at h; exact Outcome.noConfusion h
  · rw [if_neg h1] at h
    by_cases h2 : asObj.asn ∈ ctx.victimAsns
    · rw [if_pos h2] at h; exact Outcome.noConfusion h
    · rw [if_neg h2] at h
      by_cases h3 : disconnectedCond asObj.asn sav dst msa = true
      · rw [if_pos h3] at h; exact Outcome.noConfusion h
      · rw [if_neg h3] at h
        by_cases h4 : asObj.asn ∈ visited ∨ visited.length > 64
        · rw [if_pos h4] at h; exact Outcome.noConfusion h
        · push_neg at h4
          exact ⟨h4.1, by omega⟩

/-- `dict.get` over the outcomes map. -/
def outcomesGet : List (Nat × Outcome) → Nat → Option Outcome
  | [], _ => none
  | kv :: rest, k => if kv.1 = k then some kv.2 else outcomesGet rest k

/-- `outcomes[asn] = outcome`: in-place update when present, else append. -/
def outcomesSet (m : List (Nat × Outcome)) (k : Nat) (v : Outcome) :
    List (Nat × Outcome) :=
  if m.any (fun kv => kv.1 = k) then
    m.map (fun kv => if kv.1 = k then (k, v) else kv)
  else m ++ [(k, v)]

/-- `DataPlanePacketPropagator.store_as_data_plane_outcomes`
(data_plane_packet_propagator.py 19-41).  The outcomes map, the visited set
and the shared most-specific-prefix cache are threaded explicitly; the
`engine.as_graph.as_dict[...]` subscript raises KeyError for a dangling
next hop.  In the recursive branch the outcome is UNDETERMINED, which
forces `as_obj.asn ∉ visited_asns`, so the Python `visited_asns.add(...)`
is exactly an append here; it also forces the most specific announcement
to be present (`None` would have been DISCONNECTED), and the embedding
keeps Python's AttributeError for the impossible `None.next_hop_asn`. -/
def storeASDataPlaneOutcomes (ctx : TracebackCtx) (dst : Pfx) (asObj : ASNode)
    (outcomes : List (Nat × Outcome)) (visitedAsns : List Nat) (cache : Cache) :
    Except PyErr (Outcome × List (Nat × Outcome) × Cache) :=
  match outcomesGet outcomes asObj.asn with
  | some o => .ok (o, outcomes, cache)
  | none =>
      match getMostSpecificAnn asObj.localRib cache dst with
      | .error e => .error e
      | .ok (msa, cache1) =>
          if hout : determineDataPlaneOutcome ctx basePassesSav asObj dst msa visitedAsns
              = .undetermined then
            match msa with
            | none => .error .typeError
            | some a =>
                match ctx.asDict a.nextHopAsn with
                | none => .error .keyError
                | some nextAs =>
                    match storeASDataPlaneOutcomes ctx dst nextAs outcomes
                        (visitedAsns ++ [asObj.asn]) cache1 with
                    | .error e => .error e
                    | .ok (o2, outcomes2, cache2) =>
                        .ok (o2, outcomesSet outcomes2 asObj.asn o2, cache2)
          else
            .ok (determineDataPlaneOutcome ctx basePassesSav asObj dst msa visitedAsns,
              outcomesSet outcomes asObj.asn
                (determineDataPlaneOutcome ctx basePassesSav asObj dst msa visitedAsns),
              cache1)
  termination_by 65 - visitedAsns.length
  decreasing_by
    have hfacts := determine_undetermined_bounds ctx basePassesSav asObj dst _
      visitedAsns hout
    simp only [List.length_append, List.length_singleton]
    omega

theorem outcomesGet_set_self (m : List (Nat × Outcome)) (k : Nat) (v : Outcome) :
    outcomesGet (outcomesSet m k v) k = some v := by
  induction m with
  | nil =>
      simp only [outcomesSet, List.any_nil, Bool.false_eq_true, if_false,
        List.nil_append]
      simp [outcomesGet]
  | cons kv rest ih =>
      unfold outcomesSet
      by_cases he : kv.1 = k
      · rw [if_pos (by simp [List.any_cons, he])]
        rw [List.map_cons, if_pos he]
        simp [outcomesGet]
      · by_cases hrest : rest.any (fun kv2 => kv2.1 = k) = true
        · rw [if_pos (by simp [List.any_cons, hrest])]
          rw [List.map_cons, if_neg he]
          unfold outcomesGet
          rw [if_neg he]
          have hset : outcomesSet rest k v
              = rest.map (fun kv2 => if kv2.1 = k then (k, v) else kv2) := by
            unfold outcomesSet
            rw [if_pos hrest]
          rw [← hset]
          exact ih
        · rw [if_neg (by simp [List.any_cons, he, hrest])]
          rw [List.cons_append]
          unfold outcomesGet
          rw [if_neg he]
          have hset : outcomesSet rest k v = rest ++ [(k, v)] := by
            unfold outcomesSet
            rw [if_neg hrest]
          rw [← hset]
          exact ih

/-- C5 amended, part proved here: (1) whenever the traceback returns
normally, its outcomes map assigns the start AS the returned outcome;
(2) the loop guard — AS already visited, or more than 64 visited — yields
DATA_PLANE_LOOP *provided* the attacker, victim and disconnected checks,
which the source evaluates first, do not fire. -/
theorem c5_traceback_amended :
    (∀ (ctx : TracebackCtx) (dst : Pfx) (asObj : ASNode)
      (outcomes : List (Nat × Outcome)) (visited : List Nat) (cache : Cache)
      (o : Outcome) (m : List (Nat × Outcome)) (c2 : Cache),
      storeASDataPlaneOutcomes ctx dst asObj outcomes visited cache
        = .ok (o, m, c2) →
      outcomesGet m asObj.asn = some o) ∧
    (∀ (ctx : TracebackCtx) (sav : Pfx → Ann → Bool) (asObj : ASNode)
      (dst : Pfx) (msa : Option Ann) (visited : List Nat),
      asObj.asn ∉ ctx.attackerAsns → asObj.asn ∉ ctx.victimAsns →
      disconnectedCond asObj.asn sav dst msa = false →
      (asObj.asn ∈ visited ∨ visited.length > 64) →
      determineDataPlaneOutcome ctx sav asObj dst msa visited
        = .dataPlaneLoop) := by
  constructor
  · intro ctx dst asObj outcomes visited cache o m c2 h
    unfold storeASDataPlaneOutcomes at h
    split at h
    · rename_i o1 heq
      have h2 : (o1, outcomes, cache) = (o, m, c2) := Except.ok.inj h
      have ho : o1 = o := congrArg (fun t => t.1) h2
      have hm : outcomes = m := congrArg (fun t => t.2.1) h2
      rw [← hm, heq, ho]
    · split at h
      · exact Except.noConfusion h
      · rename_i msa cache1 hga
        split at h
        · split at h
          · exact Except.noConfusion h
          · split at h
            · exact Except.noConfusion h
            · split at h
              · exact Except.noConfusion h
              · rename_i o2 outcomes2 cache2 hrec
                have h2 := Except.ok.inj h
                have ho : o2 = o := congrArg (fun t => t.1) h2
                have hm : outcomesSet outcomes2 asObj.asn o2 = m :=
                  congrArg (fun t => t.2.1) h2
                rw [← hm, ← ho]
                exact outcomesGet_set_self outcomes2 asObj.asn o2
        · rename_i hnu
          have h2 := Except.ok.inj h
          have ho := congrArg (fun t => t.1) h2
          have hm := congrArg (fun t => t.2.1) h2
          simp only at ho hm
          rw [← hm, ← ho]
          exact outcomesGet_set_self outcomes asObj.asn _
  · intro ctx sav asObj dst msa visited h1 h2 h3 h4
    unfold determineDataPlaneOutcome
    rw [if_neg h1, if_neg h2, if_neg (by rw [h3]; exact Bool.false_ne_true),
      if_pos h4]

/-- Traceback context for concrete runs: AS 7 is the attacker. -/
def c5ctx : TracebackCtx :=
  { asDict := fun n => if n = 7 then some ⟨7, []⟩ else none
    attackerAsns := [7]
    victimAsns := [] }

/-- C5 counterexample: the attacker check runs before the loop guard, so
starting the traceback at attacker AS 7 with 7 already in the visited set
returns ATTACKER_SUCCESS, not DATA_PLANE_LOOP as the claim's guard sentence
states. -/
theorem c5_loop_guard_counterexample :
    storeASDataPlaneOutcomes c5ctx (mkIPAddr 1) ⟨7, []⟩ [] [7] []
      = .ok (.attackerSuccess, [(7, .attackerSuccess)],
          [((mkIPAddr 1, []), none)]) ∧
    Outcome.attackerSuccess ≠ Outcome.dataPlaneLoop := by
  constructor
  · unfold storeASDataPlaneOutcomes
    simp [outcomesGet, getMostSpecificAnn, gmsaRes, gmsaMsp, gmsaCached,
      cacheGet, cacheSet, mostSpecificMatch, dictGet, determineDataPlaneOutcome,
      disconnectedCond, outcomesSet, c5ctx, basePassesSav, Except.map]
  · decide

/-- A non-trivial announcement for the C5 witness. -/
def c5witnessAnn : Ann :=
  { pfx := pfx16, asPath := [5, 6], nextHopAsn := 5, recvRel := .customers,
    timestamp := 0, bgpsecNextAsn := none, bgpsecAsPath := [],
    onlyToCustomers := none, rovppBlackhole := false }

/-- C5 witness: both conjuncts of the amended theorem applied at concrete
inputs — a completed run at attacker AS 7 assigns it its outcome, and a
non-attacker, non-victim, connected AS 3 already in the visited set gets
DATA_PLANE_LOOP. -/
theorem c5_traceback_amended_witness :
    outcomesGet [(7, Outcome.attackerSuccess)] 7 = some Outcome.attackerSuccess ∧
    determineDataPlaneOutcome c5ctx basePassesSav ⟨3, []⟩ (mkIPAddr 1)
        (some c5witnessAnn) [3] = .dataPlaneLoop := by
  constructor
  · exact c5_traceback_amended.1 c5ctx (mkIPAddr 1) ⟨7, []⟩ [] [7] []
      Outcome.attackerSuccess [(7, Outcome.attackerSuccess)]
      [((mkIPAddr 1, []), none)]
      (by
        unfold storeASDataPlaneOutcomes
        simp [outcomesGet, getMostSpecificAnn, gmsaRes, gmsaMsp, gmsaCached,
          cacheGet, cacheSet, mostSpecificMatch, dictGet,
          determineDataPlaneOutcome, disconnectedCond, outcomesSet, c5ctx,
          basePassesSav, Except.map])
  · exact c5_traceback_amended.2 c5ctx basePassesSav ⟨3, []⟩ (mkIPAddr 1)
      (some c5witnessAnn) [3] (by decide) (by decide) (by decide)
      (Or.inl (by decide))

/-- The DISCONNECTED disjunction with the source-address-validation
disjunct removed: the comparison target for C10, following the spec §4.6
step 3 without the `!passes_sav` clause. -/
def disconnectedCondNoSav (selfAsn : Nat) (mostSpecificAnn : Option Ann) : Bool :=
  match mostSpecificAnn with
  | none => true
  | some a =>
      decide (a.asPath.length = 1)
      || decide (a.recvRel.value = Rel.origin.value)
      || decide (a.nextHopAsn = selfAsn)

/-- `_determine_data_plane_outcome` with the SAV disjunct removed. -/
def determineDataPlaneOutcomeNoSav (ctx : TracebackCtx) (asObj : ASNode)
    (dst : Pfx) (mostSpecificAnn : Option Ann) (visitedAsns : List Nat) :
    Outcome :=
  if asObj.asn ∈ ctx.attackerAsns then .attackerSuccess
  else if asObj.asn ∈ ctx.victimAsns then .victimSuccess
  else if disconnectedCondNoSav asObj.asn mostSpecificAnn then .disconnected
  else if asObj.asn ∈ visitedAsns ∨ visitedAsns.length > 64 then .dataPlaneLoop
  else .undetermined

/-- C10: the base `passes_sav` returns True for every destination address
and announcement, so under the base policy the `not passes_sav` disjunct of
the DISCONNECTED test can never decide the outcome: the outcome function
equals its variant with the SAV disjunct removed, on every input. -/
theorem c10_base_sav_unreachable :
    (∀ (dst : Pfx) (a : Ann), basePassesSav dst a = true) ∧
    (∀ (ctx : TracebackCtx) (asObj : ASNode) (dst : Pfx)
      (msa : Option Ann) (visited : List Nat),
      determineDataPlaneOutcome ctx basePassesSav asObj dst msa visited
        = determineDataPlaneOutcomeNoSav ctx asObj dst msa visited) := by
  refine ⟨fun _ _ => rfl, fun ctx asObj dst msa visited => ?_⟩
  unfold determineDataPlaneOutcome determineDataPlaneOutcomeNoSav
    disconnectedCond disconnectedCondNoSav basePassesSav
  cases msa <;> simp

/-! ## ASGraph JSON round trip (C9) -/

/-- A minimal JSON value universe for the AS-graph serialization; the
routing-policy sub-object's content plays no role in the round trip (which
fails before reading it) and is carried opaquely. -/
inductive JVal
  | num (n : Nat)
  | flag (b : Bool)
  | optNum (v : Option Nat)
  | nums (l : List Nat)
  | sub (fields : List (String × JVal))

/-- The slice of an `AS` that its serialization reads
(as_graphs/base_as.py). -/
structure ASData where
  asn : Nat
  peerAsns : List Nat
  providerAsns : List Nat
  customerAsns : List Nat
  tier1 : Bool
  ixp : Bool
  providerConeAsns : List Nat
  propagationRank : Option Nat

/-- `RoutingPolicy.to_json` (routing_policy.py 364-370), carried opaquely:
local_rib plus the two settings dicts. -/
def routingPolicyJson : List (String × JVal) :=
  [("local_rib", .sub []), ("base_routing_policy_settings", .sub []),
   ("overriden_routing_policy_settings", .sub [])]

/-- `AS.to_json` (as_graphs/base_as.py 123-136).  The three adjacency lists
are written `[asn for x in self.customer_asns]` (likewise peers and
providers): the name `asn` is unbound inside the comprehension, so
evaluating it over a non-empty set raises NameError, while an empty set
never evaluates the body and yields []. -/
def asToJson (a : ASData) : Except PyErr (List (String × JVal)) :=
  if a.customerAsns ≠ [] ∨ a.peerAsns ≠ [] ∨ a.providerAsns ≠ [] then
    .error .nameError
  else
    .ok [("asn", .num a.asn), ("customer_asns", .nums []),
         ("peer_asns", .nums []), ("provider_asns", .nums []),
         ("tier_1", .flag a.tier1), ("ixp", .flag a.ixp),
         ("provider_cone_asns", .nums a.providerConeAsns),
         ("propagation_rank", .optNum a.propagationRank),
         ("routing_policy", .sub routingPolicyJson)]

/-- The keyword parameters accepted by `AS.__init__`
(as_graphs/base_as.py 11-25). -/
def asInitKwargNames : List String :=
  ["asn", "peer_asns", "provider_asns", "customer_asns",
   "provider_cone_asns", "propagation_rank", "tier_1", "ixp",
   "base_routing_policy_settings", "overriden_routing_policy_settings",
   "as_graph"]

/-- `AS(as_graph=self, **info)` as called by `ASGraph.__init__`
(as_graph.py 28): Python rejects any keyword absent from the parameter
list with TypeError before the constructor body runs.  For `AS.to_json`
output the unexpected key "routing_policy" is always present, so the body
is never reached. -/
def asFromKwargs (info : List (String × JVal)) : Except PyErr Unit :=
  if info.all (fun kv => asInitKwargNames.contains kv.1) then .ok ()
  else .error .typeError

/-- `ASGraph.to_json` (as_graph.py 58-67): serialize every AS; the
graph-level keys (`asn_groups`, `extra_setup_complete: true`,
`cycles_detected: false`, `propagation_ranks`) ride alongside. -/
def asGraphToJson : List ASData → Except PyErr (List (Nat × List (String × JVal)))
  | [] => .ok []
  | a :: rest =>
      match asToJson a with
      | .error e => .error e
      | .ok j =>
          match asGraphToJson rest with
          | .error e => .error e
          | .ok js => .ok ((a.asn, j) :: js)

/-- `ASGraph.from_json` = `ASGraph.__init__` on a serialized graph
(as_graph.py 19-36, 69-73): the emitted `extra_setup_complete: true`
short-circuits `ASGraphUtils.add_extra_setup`, then every AS entry goes
through `AS(as_graph=self, **info)`. -/
def asGraphFromJson : List (Nat × List (String × JVal)) → Except PyErr Unit
  | [] => .ok ()
  | (_, info) :: rest =>
      match asFromKwargs info with
      | .error e => .error e
      | .ok _ => asGraphFromJson rest

/-- `ASGraph.from_json(g.to_json())`. -/
def asGraphRoundTrip (g : List ASData) : Except PyErr Unit :=
  match asGraphToJson g with
  | .error e => .error e
  | .ok j => asGraphFromJson j

/-- A one-AS graph with no adjacencies. -/
def c9SingleAS : List ASData := [⟨1, [], [], [], false, false, [], some 0⟩]

/-- A one-AS graph with one customer. -/
def c9WithCustomer : List ASData := [⟨1, [], [], [2], false, false, [], some 1⟩]

/-- C9: the serialization round trip never succeeds.  Even for an isolated
AS, `AS.to_json` emits a "routing_policy" key that `AS.__init__` does not
accept, so `ASGraph.from_json(g.to_json())` raises TypeError; and for any
AS with a non-empty adjacency set, `AS.to_json` itself raises NameError
(the unbound `asn` in `[asn for x in self.customer_asns]`). -/
theorem c9_round_trip_fails :
    asGraphRoundTrip c9SingleAS = .error .typeError ∧
    asGraphToJson c9WithCustomer = .error .nameError := by
  exact ⟨rfl, rfl⟩

end BgpSim
